import Mathlib

/-!
Verification of the web2jsonfeed service (Deno variant of `src/app.js`,
the most complete variant of the repository).  The JavaScript code is
shallowly embedded: the HTTP handler, rate limiter, TTL cache, content
extraction, heuristic feed builder and AI builder are translated into
executable Lean definitions.  Runtime capabilities used by the code
(the `cheerio` DOM, `JSON.parse`/`JSON.stringify`, the WHATWG `URL`
resolver and JavaScript `Date`) are modelled as faithful executable
functions over explicit data, as documented on each definition.
-/

set_option maxRecDepth 10000

namespace Web2JsonFeed

/-- Left and right curly brace characters, used when building or matching
JSON text. -/
def lbraceC : Char := Char.ofNat 123

/-- Right curly brace character. -/
def rbraceC : Char := Char.ofNat 125

/-- JavaScript string truthiness of a possibly-absent string: `undefined`
(here `none`) and the empty string are falsy, everything else truthy. -/
def truthy : Option String → Bool
  | none => false
  | some s => !s.isEmpty

/-- JavaScript `a || b` for a possibly-absent string `a` with string
fallback `b`: the fallback is taken when `a` is `undefined`/`null` or the
empty string. -/
def jsOrS (a : Option String) (b : String) : String :=
  match a with
  | none => b
  | some s => if s.isEmpty then b else s

/-- Prefix test on character lists (structural, kernel-computable). -/
def leadsWith : List Char → List Char → Bool
  | [], _ => true
  | _ :: _, [] => false
  | p :: ps, c :: cs => p = c && leadsWith ps cs

/-- `String.startsWith`, restated structurally so that concrete runs of
the handler reduce inside the kernel. -/
def strStartsWith (s pat : String) : Bool := leadsWith pat.data s.data

/-- Whitespace recognized by trimming. -/
def isWsC (c : Char) : Bool := c = ' ' || c = '\t' || c = '\n' || c = '\r'

/-- `String.trim` (JavaScript `.trim()`), restated structurally. -/
def strTrim (s : String) : String :=
  String.mk (((s.data.dropWhile isWsC).reverse.dropWhile isWsC).reverse)

/-- Split a character list on a separator character; splitting the empty
list yields one empty group, as JavaScript `''.split(',')` yields `['']`. -/
def splitOnCharAux (sep : Char) : List Char → List (List Char)
  | [] => [[]]
  | c :: rest =>
    match splitOnCharAux sep rest with
    | [] => [[]]
    | g :: gs => if c = sep then [] :: g :: gs else (c :: g) :: gs

/-- `String.splitOn` for a one-character separator, restated structurally. -/
def splitOnC (s : String) (sep : Char) : List String :=
  (splitOnCharAux sep s.data).map String.mk

/-- JSON values.  Numbers are modelled as integers: every number appearing
in this service's data (item ids, HTTP statuses) is integral. -/
inductive Json where
  | null : Json
  | bool (b : Bool) : Json
  | num (n : Int) : Json
  | str (s : String) : Json
  | arr (elems : List Json) : Json
  | obj (fields : List (String × Json)) : Json
deriving Repr

/-- Field lookup on a JSON value, as JavaScript property access `v[k]`:
`none` when the value is not an object or lacks the key. -/
def Json.get? (j : Json) (k : String) : Option Json :=
  match j with
  | .obj fs => (fs.find? (fun p => p.1 == k)).map (·.2)
  | _ => none

/-- Index access on a JSON value, as JavaScript `v[i]` on an array. -/
def Json.idx? (j : Json) (i : Nat) : Option Json :=
  match j with
  | .arr xs => xs.get? i
  | _ => none

/-!
Model of the JavaScript `Date` runtime capability.  Timestamps are
milliseconds since the Unix epoch (a `Nat`; the service only ever stamps
current wall-clock times, which are nonnegative).  The Gregorian civil
calendar conversion matches ECMA-262 `Date.prototype.toISOString` for
years 1970 through 9999; the year of era and the month are computed by
bounded search over the era, which makes their defining property
(maximality) directly provable.
-/

/-- Days from 1 March of year 0 of an era to 1 March of year-of-era `yoe`
(0-based, Gregorian leap rule). -/
def fdoe (yoe : Nat) : Nat := 365 * yoe + yoe / 4 - yoe / 100

/-- Day-of-March-based-year on which shifted month `mp` (0 = March) starts. -/
def dayStart (mp : Nat) : Nat := (153 * mp + 2) / 5

/-- Largest `y ≤ n` with `fdoe y ≤ doe` (the year of era containing day
`doe` of the era, searching down from `n`). -/
def yoeSearch (doe : Nat) : Nat → Nat
  | 0 => 0
  | y + 1 => if fdoe (y + 1) ≤ doe then y + 1 else yoeSearch doe y

/-- Year of era (0–399) of day `doe` (0–146096) of a 400-year era. -/
def yoeOfDoe (doe : Nat) : Nat := yoeSearch doe 399

/-- Largest `m ≤ n` with `dayStart m ≤ doy`. -/
def mpSearch (doy : Nat) : Nat → Nat
  | 0 => 0
  | m + 1 => if dayStart (m + 1) ≤ doy then m + 1 else mpSearch doy m

/-- Shifted month (0 = March … 11 = February) of a day of March-based year. -/
def mpOfDoy (doy : Nat) : Nat := mpSearch doy 11

/-- Day within the 400-year Gregorian era of epoch day `z` (shifted so the
era starts 0000-03-01). -/
def doeOf (z : Nat) : Nat := (z + 719468) % 146097

/-- Index of the 400-year Gregorian era containing epoch day `z`. -/
def eraOf (z : Nat) : Nat := (z + 719468) / 146097

/-- Year of era of epoch day `z`. -/
def yoeZ (z : Nat) : Nat := yoeOfDoe (doeOf z)

/-- Day of March-based year of epoch day `z`. -/
def doyZ (z : Nat) : Nat := doeOf z - fdoe (yoeZ z)

/-- Shifted month of epoch day `z`. -/
def mpZ (z : Nat) : Nat := mpOfDoy (doyZ z)

/-- Day of month (1-based) of epoch day `z`. -/
def dayZ (z : Nat) : Nat := doyZ z - dayStart (mpZ z) + 1

/-- Civil month (1–12) of epoch day `z`. -/
def monthZ (z : Nat) : Nat := if mpZ z < 10 then mpZ z + 3 else mpZ z - 9

/-- Civil year of epoch day `z`. -/
def yearZ (z : Nat) : Nat :=
  yoeZ z + eraOf z * 400 + (if monthZ z ≤ 2 then 1 else 0)

/-- Civil Gregorian date (year, month, day) of a day count since the Unix
epoch 1970-01-01, as used by JavaScript `Date`. -/
def daysToCivil (z : Nat) : Nat × Nat × Nat := (yearZ z, monthZ z, dayZ z)

/-- Day count since the Unix epoch of a civil Gregorian date (the inverse
direction, used both for the roundtrip proof and for date parsing). -/
def civilToDays (y m d : Nat) : Nat :=
  let y2 := y - (if m ≤ 2 then 1 else 0)
  let era := y2 / 400
  let yoe := y2 % 400
  let mp := if m > 2 then m - 3 else m + 9
  let doy := dayStart mp + d - 1
  let doe := yoe * 365 + yoe / 4 - yoe / 100 + doy
  era * 146097 + doe - 719468

/-- Decimal digit character of `n % 10` padding helpers: two, three and
four fixed-width zero-padded decimal digits. -/
def pad2 (n : Nat) : List Char :=
  [Nat.digitChar (n / 10 % 10), Nat.digitChar (n % 10)]

/-- Three zero-padded decimal digits. -/
def pad3 (n : Nat) : List Char :=
  [Nat.digitChar (n / 100 % 10), Nat.digitChar (n / 10 % 10), Nat.digitChar (n % 10)]

/-- Four zero-padded decimal digits. -/
def pad4 (n : Nat) : List Char :=
  [Nat.digitChar (n / 1000 % 10), Nat.digitChar (n / 100 % 10),
    Nat.digitChar (n / 10 % 10), Nat.digitChar (n % 10)]

/-- Model of `Date.prototype.toISOString` on an epoch-millisecond
timestamp: `YYYY-MM-DDTHH:MM:SS.mmmZ`. -/
def toISOString (t : Nat) : String :=
  let z := t / 86400000
  let r := t % 86400000
  String.mk (pad4 (yearZ z) ++ '-' :: pad2 (monthZ z) ++ '-' :: pad2 (dayZ z) ++
    'T' :: pad2 (r / 3600000) ++ ':' :: pad2 (r % 3600000 / 60000) ++
    ':' :: pad2 (r % 60000 / 1000) ++ '.' :: pad3 (r % 1000) ++ ['Z'])

/-- Numeric value of a decimal digit character. -/
def dv (c : Char) : Nat := c.toNat - 48

/-- Gregorian month length, used to validate parsed dates. -/
def daysInMonth (y m : Nat) : Nat :=
  if m = 2 then (if y % 4 = 0 ∧ (y % 100 ≠ 0 ∨ y % 400 = 0) then 29 else 28)
  else if m = 4 ∨ m = 6 ∨ m = 9 ∨ m = 11 then 30 else 31

/-- Validate and read a `YYYY-MM-DD` component group. -/
def ymdVal (y1 y2 y3 y4 m1 m2 d1 d2 : Char) : Option (Nat × Nat × Nat) :=
  if y1.isDigit && y2.isDigit && y3.isDigit && y4.isDigit &&
      m1.isDigit && m2.isDigit && d1.isDigit && d2.isDigit then
    let y := dv y1 * 1000 + dv y2 * 100 + dv y3 * 10 + dv y4
    let m := dv m1 * 10 + dv m2
    let d := dv d1 * 10 + dv d2
    if 1970 ≤ y && 1 ≤ m && m ≤ 12 && 1 ≤ d && d ≤ daysInMonth y m then
      some (y, m, d)
    else none
  else none

/-- Model of JavaScript `new Date(string)` returning epoch milliseconds,
or `none` for an Invalid Date.  The model accepts the two ISO-8601 forms
this service can feed it — `YYYY-MM-DD` and `YYYY-MM-DDTHH:MM:SS.mmmZ`
(the exact output shape of `toISOString`) — restricted to years from 1970.
Every other string is an Invalid Date, matching the fact that JavaScript
also rejects arbitrary non-date text (e.g. Chinese relative-time phrases),
which is what the claims about unparseable dates depend on. -/
def jsDateParse (s : String) : Option Nat :=
  match s.data with
  | [y1, y2, y3, y4, '-', m1, m2, '-', d1, d2] =>
    (ymdVal y1 y2 y3 y4 m1 m2 d1 d2).map
      (fun c => civilToDays c.1 c.2.1 c.2.2 * 86400000)
  | [y1, y2, y3, y4, '-', m1, m2, '-', d1, d2, 'T', h1, h2, ':', n1, n2,
      ':', s1, s2, '.', f1, f2, f3, 'Z'] =>
    match ymdVal y1 y2 y3 y4 m1 m2 d1 d2 with
    | none => none
    | some c =>
      if h1.isDigit && h2.isDigit && n1.isDigit && n2.isDigit &&
          s1.isDigit && s2.isDigit && f1.isDigit && f2.isDigit && f3.isDigit then
        let hh := dv h1 * 10 + dv h2
        let mm := dv n1 * 10 + dv n2
        let ss := dv s1 * 10 + dv s2
        let ms := dv f1 * 100 + dv f2 * 10 + dv f3
        if hh ≤ 23 && mm ≤ 59 && ss ≤ 59 then
          some (civilToDays c.1 c.2.1 c.2.2 * 86400000 +
            hh * 3600000 + mm * 60000 + ss * 1000 + ms)
        else none
      else none
  | _ => none

/-- Leading-whitespace skipping for the JSON reader. -/
def skipWs : List Char → List Char
  | [] => []
  | c :: rest =>
    if c = ' ' ∨ c = '\n' ∨ c = '\t' ∨ c = '\r' then skipWs rest else c :: rest

/-- Read the remainder of a JSON string literal (after the opening quote),
returning the decoded characters and the rest of the input.  Models the
escapes this service's data uses; `\uXXXX` is out of model scope. -/
def strChars (fuel : Nat) (cs : List Char) : Option (List Char × List Char) :=
  match fuel with
  | 0 => none
  | fuel + 1 =>
    match cs with
    | [] => none
    | c :: rest =>
      if c = '"' then some ([], rest)
      else if c = '\\' then
        match rest with
        | [] => none
        | e :: rest2 =>
          let ec := if e = 'n' then '\n' else if e = 't' then '\t'
            else if e = 'r' then '\r' else e
          match strChars fuel rest2 with
          | some (acc, rem) => some (ec :: acc, rem)
          | none => none
      else
        match strChars fuel rest with
        | some (acc, rem) => some (c :: acc, rem)
        | none => none

/-- Read a maximal run of decimal digits as a number. -/
def takeDigits : List Char → Nat → Nat × List Char
  | [], acc => (acc, [])
  | c :: rest, acc =>
    if c.isDigit then takeDigits rest (acc * 10 + dv c) else (acc, c :: rest)

mutual

/-- Fueled recursive-descent JSON reader: one value. -/
def parseVal (fuel : Nat) (cs : List Char) : Option (Json × List Char) :=
  match fuel with
  | 0 => none
  | fuel + 1 =>
    match skipWs cs with
    | 'n' :: 'u' :: 'l' :: 'l' :: rem => some (.null, rem)
    | 't' :: 'r' :: 'u' :: 'e' :: rem => some (.bool true, rem)
    | 'f' :: 'a' :: 'l' :: 's' :: 'e' :: rem => some (.bool false, rem)
    | c :: rest =>
      if c = lbraceC then parseObjRest fuel rest true
      else if c = '[' then parseArrRest fuel rest true
      else if c = '"' then
        match strChars fuel rest with
        | some (acc, rem) => some (.str (String.mk acc), rem)
        | none => none
      else if c = '-' then
        match rest with
        | d :: _ =>
          if d.isDigit then
            match takeDigits rest 0 with
            | (n, rem) => some (.num (-(n : Int)), rem)
          else none
        | [] => none
      else if c.isDigit then
        match takeDigits (c :: rest) 0 with
        | (n, rem) => some (.num (n : Int), rem)
      else none
    | [] => none

/-- Fueled recursive-descent JSON reader: array remainder after `[` (or
after a comma when `allowEnd` is false). -/
def parseArrRest (fuel : Nat) (cs : List Char) (allowEnd : Bool) :
    Option (Json × List Char) :=
  match fuel with
  | 0 => none
  | fuel + 1 =>
    match skipWs cs with
    | ']' :: rem => if allowEnd then some (.arr [], rem) else none
    | cs2 =>
      match parseVal fuel cs2 with
      | none => none
      | some (v, rem) =>
        match skipWs rem with
        | ',' :: rem2 =>
          match parseArrRest fuel rem2 false with
          | some (.arr vs, rem3) => some (.arr (v :: vs), rem3)
          | _ => none
        | ']' :: rem2 => some (.arr [v], rem2)
        | _ => none

/-- Fueled recursive-descent JSON reader: object remainder. -/
def parseObjRest (fuel : Nat) (cs : List Char) (allowEnd : Bool) :
    Option (Json × List Char) :=
  match fuel with
  | 0 => none
  | fuel + 1 =>
    match skipWs cs with
    | [] => none
    | c :: rest =>
      if c = rbraceC then (if allowEnd then some (.obj [], rest) else none)
      else if c = '"' then
        match strChars fuel rest with
        | none => none
        | some (keyCs, rem) =>
          match skipWs rem with
          | ':' :: rem2 =>
            match parseVal fuel rem2 with
            | none => none
            | some (v, rem3) =>
              match skipWs rem3 with
              | ',' :: rem4 =>
                match parseObjRest fuel rem4 false with
                | some (.obj fs, rem5) =>
                  some (.obj ((String.mk keyCs, v) :: fs), rem5)
                | _ => none
              | c2 :: rem4 =>
                if c2 = rbraceC then
                  some (.obj [(String.mk keyCs, v)], rem4)
                else none
              | [] => none
          | _ => none
      else none

end

/-- Model of `JSON.parse`: `none` exactly when JavaScript would throw a
`SyntaxError`.  Numbers are read as integers (no fraction/exponent forms,
which never occur in this service's data). -/
def Json.parse (s : String) : Option Json :=
  match parseVal (s.length * 2 + 8) s.data with
  | some (j, rem) => if skipWs rem = [] then some j else none
  | none => none

mutual

/-- Model of JavaScript `String(x)` coercion on a JSON value, used by
`JSON.parse` when handed a non-string argument. -/
def jsToString : Json → String
  | .null => "null"
  | .bool true => "true"
  | .bool false => "false"
  | .num n => toString n
  | .str s => s
  | .arr xs => jsToStringList xs
  | .obj _ => "[object Object]"

/-- Array coercion: elements joined with commas. -/
def jsToStringList : List Json → String
  | [] => ""
  | [x] => jsToString x
  | x :: y :: rest => jsToString x ++ "," ++ jsToStringList (y :: rest)

end

/-- Own enumerable properties of a JSON value, as collected by the object
spread `\x7b...v\x7d`: objects contribute their fields, arrays and strings
contribute index-keyed elements/characters, other primitives nothing. -/
def fieldsOf : Json → List (String × Json)
  | .obj fs => fs
  | .arr xs => xs.enum.map (fun p => (toString p.1, p.2))
  | .str s => s.data.enum.map (fun p => (toString p.1, Json.str (String.mk [p.2])))
  | _ => []

/-- Property assignment on a field list: overwrite in place when the key
exists (JavaScript keeps the original insertion position), else append. -/
def setField (fs : List (String × Json)) (k : String) (v : Json) :
    List (String × Json) :=
  match fs with
  | [] => [(k, v)]
  | (k2, v2) :: rest =>
    if k2 = k then (k2, v) :: rest else (k2, v2) :: setField rest k v

/-- Drop a key from a field list (used to compare response bodies up to
the `generated_at` stamp). -/
def eraseField (fs : List (String × Json)) (k : String) : List (String × Json) :=
  fs.filter (fun p => p.1 != k)

/-- The response-data shaping `\x7b ...result, generated_at: new Date().toISOString() \x7d`
from the handler: a shallow copy of the value's fields with a fresh
`generated_at` stamp. -/
def withGeneratedAt (j : Json) (t : Nat) : Json :=
  Json.obj (setField (fieldsOf j) "generated_at" (Json.str (toISOString t)))

/-!
Model of the WHATWG `URL` runtime capability (`new URL(input, base)`),
covering absolute `scheme://host...` URLs and relative references
(path-relative, root-relative, protocol-relative, query-only and
fragment-only), with dot-segment removal per RFC 3986.  Out of model
scope, documented: case normalization, percent-encoding, userinfo/port
structure (kept as part of the opaque host token), and bare `scheme:path`
URLs without `//`.
-/

/-- Parsed absolute URL. `path` starts with `/`; `search`/`hash` carry
their `?`/`#` prefix or are empty. -/
structure UrlRec where
  scheme : String
  host : String
  path : String
  search : String
  hash : String

/-- Serialized form of a parsed URL. -/
def UrlRec.href (u : UrlRec) : String :=
  u.scheme ++ "://" ++ u.host ++ u.path ++ u.search ++ u.hash

/-- Split input at the first `://`, returning the scheme part and the rest. -/
def splitSchemeChars : List Char → Option (List Char × List Char)
  | [] => none
  | ':' :: '/' :: '/' :: rest => some ([], rest)
  | c :: rest =>
    match splitSchemeChars rest with
    | some (a, b) => some (c :: a, b)
    | none => none

/-- Characters allowed in a URL scheme after the initial letter. -/
def isSchemeChar (c : Char) : Bool := c.isAlphanum || c = '+' || c = '-' || c = '.'

/-- Split off the host: everything up to the first `/`, `?` or `#`. -/
def splitHostChars : List Char → List Char × List Char
  | [] => ([], [])
  | c :: rest =>
    if c = '/' ∨ c = '?' ∨ c = '#' then ([], c :: rest)
    else
      match splitHostChars rest with
      | (a, b) => (c :: a, b)

/-- Split at the first `#` (fragment kept with its `#`). -/
def splitHashChars : List Char → List Char × List Char
  | [] => ([], [])
  | c :: rest =>
    if c = '#' then ([], c :: rest)
    else
      match splitHashChars rest with
      | (a, b) => (c :: a, b)

/-- Split at the first `?` (query kept with its `?`). -/
def splitQueryChars : List Char → List Char × List Char
  | [] => ([], [])
  | c :: rest =>
    if c = '?' then ([], c :: rest)
    else
      match splitQueryChars rest with
      | (a, b) => (c :: a, b)

/-- RFC 3986 `remove_dot_segments` on a path starting with `/`. -/
def removeDotSegments (p : String) : String :=
  let segs := (splitOnC p '/').drop 1
  let segs2 :=
    if segs.getLast? = some "." ∨ segs.getLast? = some ".." then segs ++ [""]
    else segs
  let out := segs2.foldl
    (fun acc seg =>
      if seg = "." then acc
      else if seg = ".." then acc.dropLast
      else acc ++ [seg]) []
  "/" ++ String.intercalate "/" out

/-- Scheme well-formedness: nonempty, alphabetic initial, scheme chars. -/
def schemeOk (cs : List Char) : Bool :=
  !cs.isEmpty && cs.all isSchemeChar && (cs.head?.map Char.isAlpha).getD false

/-- Parse an absolute URL of the form `scheme://host[/path][?query][#hash]`;
`none` when the input is not absolute or the host is empty (where the
JavaScript `URL` constructor throws). -/
def parseAbs (s : String) : Option UrlRec :=
  match splitSchemeChars s.data with
  | none => none
  | some (schemeCs, rest) =>
    if schemeOk schemeCs then
      let hp := splitHostChars rest
      if hp.1.isEmpty then none
      else
        let hq := splitHashChars hp.2
        let pq := splitQueryChars hq.1
        some {
          scheme := String.mk schemeCs,
          host := String.mk hp.1,
          path := removeDotSegments
            (if pq.1.isEmpty then "/" else String.mk pq.1),
          search := String.mk pq.2,
          hash := String.mk hq.2 }
    else none

/-- The directory of a path: everything up to and including the last `/`. -/
def dirOf (p : String) : String :=
  String.intercalate "/" ((splitOnC p '/').dropLast) ++ "/"

/-- Model of `new URL(input, base).href`: `none` when the constructor
throws (invalid input with no usable base). -/
def resolveURL (input base : String) : Option String :=
  match parseAbs input with
  | some u => some u.href
  | none =>
    match parseAbs base with
    | none => none
    | some b =>
      if input = "" then some { b with hash := "" }.href
      else if strStartsWith input "//" then
        (parseAbs (b.scheme ++ ":" ++ input)).map UrlRec.href
      else if strStartsWith input "#" then some { b with hash := input }.href
      else
        let hq := splitHashChars input.data
        let pq := splitQueryChars hq.1
        let hashS := String.mk hq.2
        let searchS := String.mk pq.2
        let pathPart := String.mk pq.1
        if pathPart = "" then
          some { b with search := searchS, hash := hashS }.href
        else if strStartsWith pathPart "/" then
          some { b with path := removeDotSegments pathPart,
                        search := searchS, hash := hashS }.href
        else
          some { b with path := removeDotSegments (dirOf b.path ++ pathPart),
                        search := searchS, hash := hashS }.href

/-- A string is an absolute URL when it is the serialization of a parsed
URL with nonempty scheme and host. -/
def IsAbsUrl (s : String) : Prop :=
  ∃ u : UrlRec, s = u.href ∧ u.scheme ≠ "" ∧ u.host ≠ ""

/-!
Model of the `cheerio` DOM capability.  `extractMainContent` hands the
builder a live DOM handle `$`; the builder reads it only through a fixed
set of selector queries, so the DOM is modelled as a record holding the
result of each of those queries (`.text()` gives a string, empty when
nothing matches; `.attr(...)` gives `undefined` — here `none` — when the
element or attribute is missing).
-/

/-- One element matched by the list-item selector union
`main article, .article-list .item, .post-list .post, .entry-list .entry,
.posts .post, div[class*="article"], div[class*="post"], .topic-item`,
holding the per-item query results `autoExtractContent` reads. -/
structure DomItem where
  headerText : String
  anchorHref : Option String
  imgSrc : Option String
  dateText : String
  tagTexts : List String

/-- The page-level query results read by `extractMainContent` and
`autoExtractContent`.  `ogPublishedTime` is the first `content` of
`meta[property="og:published_time"], meta[name="twitter:date"]`;
`firstImgSrc` is `$('img').first().attr('src')`. -/
structure Dom where
  titleText : String
  mainContentHtml : Option String
  bodyHtml : Option String
  listItems : List DomItem
  canonicalHref : Option String
  ogImage : Option String
  ogPublishedTime : Option String
  metaDescription : Option String
  faviconHref : Option String
  metaKeywords : Option String
  firstImgSrc : Option String

/-- The `ExtractedPage` record `\x7b $, title, content, url \x7d` returned by
`extractMainContent`. -/
structure Content where
  dom : Dom
  title : String
  content : String
  url : String

/-- `extractMainContent(html, url)` from `src/app.js`: main-content
selector cascade with body fallback and the fixed failure placeholder. -/
def extractMainContent (dom : Dom) (url : String) : Content :=
  { dom := dom,
    title := dom.titleText,
    content := jsOrS dom.mainContentHtml (jsOrS dom.bodyHtml "内容解析失败"),
    url := url }

/-- JavaScript error value thrown or returned along the pipeline; the
constructor carries the `message`. -/
inductive JsError where
  | jsError (message : String) : JsError

/-- The `message` of a JavaScript error. -/
def JsError.message : JsError → String
  | .jsError m => m

/-- A feed item as built by `autoExtractContent`; `id` is kept as a JSON
value because the source writes a string id for list items but the number
`1` for the synthetic whole-page item. -/
structure FeedItem where
  id : Json
  url : String
  title : String
  image : String
  date_published : String
  tags : List String

/-- A JSON Feed document as built by `autoExtractContent`. -/
structure Feed where
  version : String
  title : String
  home_page_url : String
  feed_url : String
  description : String
  favicon : String
  items : List FeedItem

/-- Serialization of a feed item, field order as in the source literal. -/
def FeedItem.toJson (it : FeedItem) : Json :=
  Json.obj [
    ("id", it.id),
    ("url", Json.str it.url),
    ("title", Json.str it.title),
    ("image", Json.str it.image),
    ("date_published", Json.str it.date_published),
    ("tags", Json.arr (it.tags.map Json.str))]

/-- Serialization of a feed document, field order as in the source literal. -/
def Feed.toJson (f : Feed) : Json :=
  Json.obj [
    ("version", Json.str f.version),
    ("title", Json.str f.title),
    ("home_page_url", Json.str f.home_page_url),
    ("feed_url", Json.str f.feed_url),
    ("description", Json.str f.description),
    ("favicon", Json.str f.favicon),
    ("items", Json.arr (f.items.map FeedItem.toJson))]

/-- One iteration of the `articleItems.map((item, index) => ...)` body in
`autoExtractContent` (Deno variant of `src/app.js`, lines 346–364).
Failure points, in source evaluation order: `new URL(rawUrl, content.url)`
for the item link, `new URL(itemImage, content.url)` for the image, and
`new Date(itemDate).toISOString()`, which throws a `RangeError` when the
date text is unparseable.  The source's tag fallback
`...slice(0, 5) || ['默认标签']` is unreachable because a JavaScript array
— even an empty one — is truthy, so the model is a plain `take 5`. -/
def buildItem (c : Content) (now : Nat) (idx : Nat) (item : DomItem) :
    Except JsError FeedItem :=
  let itemTitle :=
    if (strTrim item.headerText).isEmpty then "未识别条目标题"
    else strTrim item.headerText
  let rawUrl := jsOrS item.anchorHref (jsOrS c.dom.canonicalHref c.url)
  match resolveURL rawUrl c.url with
  | none => .error (.jsError "TypeError: Invalid URL")
  | some itemUrl =>
    let itemImage := jsOrS item.imgSrc (jsOrS c.dom.ogImage "")
    match resolveURL itemImage c.url with
    | none => .error (.jsError "TypeError: Invalid URL")
    | some resolvedImage =>
      let metaDate := jsOrS c.dom.ogPublishedTime (toISOString now)
      let itemDate := if item.dateText.isEmpty then metaDate else item.dateText
      match jsDateParse itemDate with
      | none => .error (.jsError "RangeError: Invalid time value")
      | some ms =>
        .ok {
          id := Json.str (toString idx),
          url := itemUrl,
          title := itemTitle,
          image := resolvedImage,
          date_published := toISOString ms,
          tags := item.tagTexts.take 5 }

/-- The synthetic whole-page item built when no list selector matched
(`src/app.js` lines 373–380).  Its `id` is the JSON number `1`, its image
is taken verbatim (not URL-resolved), and its tags come from the
`keywords` meta tag split on commas, with the placeholder only when the
meta tag is absent (`?.` short-circuit). -/
def syntheticItem (c : Content) (now : Nat) : FeedItem :=
  { id := Json.num 1,
    url := c.url,
    title := if c.title.isEmpty then "未识别标题" else c.title,
    image := jsOrS c.dom.ogImage (jsOrS c.dom.firstImgSrc ""),
    date_published := toISOString now,
    tags :=
      match c.dom.metaKeywords with
      | some s => (splitOnC s ',').take 5
      | none => ["默认标签"] }

/-- Index-carrying traversal of the item list, stopping at the first
thrown error, as `Array.prototype.map` does when the callback throws. -/
def mapIdxE (f : Nat → DomItem → Except JsError FeedItem) :
    Nat → List DomItem → Except JsError (List FeedItem)
  | _, [] => .ok []
  | i, x :: xs =>
    match f i x with
    | .error e => .error e
    | .ok y =>
      match mapIdxE f (i + 1) xs with
      | .error e => .error e
      | .ok ys => .ok (y :: ys)

/-- `autoExtractContent` from the Deno variant of `src/app.js` (lines
343–382): the heuristic feed builder. -/
def autoExtractContent (c : Content) (now : Nat) : Except JsError Feed :=
  match mapIdxE (buildItem c now) 0 c.dom.listItems with
  | .error e => .error e
  | .ok items =>
    .ok {
      version := "https://jsonfeed.org/version/1.1",
      title := if c.title.isEmpty then "未识别标题" else c.title,
      home_page_url := c.url,
      feed_url := c.url ++ "/feed",
      description := jsOrS c.dom.metaDescription "自动解析的网页内容",
      favicon := jsOrS c.dom.faviconHref "",
      items := if items.length > 0 then items else [syntheticItem c now] }

/-- The configured AI service names: the own keys of the `AI_SERVICES`
table in the Deno variant of `src/app.js`. -/
def aiServiceNames : List String := ["openai", "claude", "zhipu", "xunfei"]

/-- The own property names of `Object.prototype`: a JavaScript property
read on an object literal that misses every own key continues through
the prototype chain and finds these. -/
def objectProtoKeys : List String :=
  ["constructor", "hasOwnProperty", "isPrototypeOf", "propertyIsEnumerable",
   "toLocaleString", "toString", "valueOf", "__defineGetter__",
   "__defineSetter__", "__lookupGetter__", "__lookupSetter__", "__proto__"]

/-- Truthiness of the property access `AI_SERVICES[ai]`: the own keys
hold config objects (truthy), and the `Object.prototype` names are found
through the prototype chain — functions, or for `__proto__` the
prototype object itself, all truthy.  Any other name reads
`undefined` (falsy). -/
def aiServicesTruthy (ai : String) : Bool :=
  aiServiceNames.contains ai || objectProtoKeys.contains ai

/-- Outcome of an outbound HTTP POST to an AI provider. -/
structure HttpResp where
  ok : Bool
  status : Nat
  body : String

/-- The runtime environment of one request: configured credentials
(`Deno.env`), the outcome of the page fetch per URL, the parsed DOM per
HTML text (the `cheerio.load` capability), and the provider's HTTP
response per service and request content. -/
structure Env where
  apiKey : String → Option String
  fetchResult : String → Except JsError String
  parseHtml : String → Dom
  aiResp : String → Content → HttpResp

/-- The envelope access `data.choices[0].message.content`: `none` when any
step of the chain would fault. -/
def msgContent (data : Json) : Option Json :=
  match data.get? "choices" with
  | none => none
  | some ch =>
    match ch.idx? 0 with
    | none => none
    | some c0 =>
      match c0.get? "message" with
      | none => none
      | some msg => msg.get? "content"

/-- `processWithAI(serviceName, content)` from the Deno variant of
`src/app.js` (lines 392–421).  The `try` block wraps exactly the
expression `JSON.parse(data.choices[0].message.content)`, so both a
faulting envelope access and undecodable message content surface as the
`AI返回结果解析失败` error; a non-OK provider response and an undecodable
response body fail before the `try`.  `JSON.parse` applied to a
non-string value first coerces it with `String(...)`.  The lookup
`AI_SERVICES[serviceName]` traverses the prototype chain: on a name that
is neither an own key nor an `Object.prototype` name, `service` is
`undefined` and `service.apiKey` throws a `TypeError`; on an inherited
`Object.prototype` value, `.apiKey` is `undefined`, so the credential
check fails. -/
def processWithAI (env : Env) (serviceName : String) (content : Content) :
    Except JsError Json :=
  if !(aiServicesTruthy serviceName) then
    .error (.jsError
      "TypeError: Cannot read properties of undefined (reading apiKey)")
  else if !(aiServiceNames.contains serviceName &&
      truthy (env.apiKey serviceName)) then
    .error (.jsError ("未配置AI服务 " ++ serviceName ++ " 的API密钥"))
  else
    let resp := env.aiResp serviceName content
    if !resp.ok then
      .error (.jsError ("AI服务请求失败：" ++ toString resp.status))
    else
      match Json.parse resp.body with
      | none => .error (.jsError "SyntaxError: Unexpected token in JSON")
      | some data =>
        match msgContent data with
        | none => .error (.jsError "AI返回结果解析失败")
        | some c =>
          match Json.parse (jsToString c) with
          | some j => .ok j
          | none => .error (.jsError "AI返回结果解析失败")

/-- Which builder a request was dispatched to. -/
inductive BuilderKind where
  | heuristic : BuilderKind
  | aiService (name : String) : BuilderKind

/-- The fetch→extract→dispatch part of the handler's miss path
(`src/app.js` lines 322–324): `ai === 'rebot' || !ai` selects the
heuristic builder, anything else the AI path. -/
def runPipeline (env : Env) (ai : Option String) (url : String) (now : Nat) :
    Except JsError Json × Option BuilderKind :=
  match env.fetchResult url with
  | .error e => (.error e, none)
  | .ok html =>
    let content := extractMainContent (env.parseHtml html) url
    if ai == some "rebot" || !(truthy ai) then
      (match autoExtractContent content now with
       | .error e => .error e
       | .ok f => .ok f.toJson, some .heuristic)
    else
      (processWithAI env (ai.getD "") content, some (.aiService (ai.getD "")))

/-- A per-client window of the rate limiter: request count and window
start (epoch milliseconds). -/
structure RateRec where
  count : Nat
  timestamp : Nat

/-- A cache entry: the stored document and its insertion time, standing
for the `setTimeout`-scheduled deletion `CACHE_TTL` seconds later. -/
structure CacheEntry where
  value : Json
  insertedAt : Nat

/-- Association-list lookup (the `Map.get` of the limiter and cache). -/
def lookupA {α : Type} (m : List (String × α)) (k : String) : Option α :=
  match m with
  | [] => none
  | (k2, v) :: rest => if k2 = k then some v else lookupA rest k

/-- Association-list update (the `Map.set`; existing keys keep position). -/
def setA {α : Type} (m : List (String × α)) (k : String) (v : α) :
    List (String × α) :=
  match m with
  | [] => [(k, v)]
  | (k2, v2) :: rest =>
    if k2 = k then (k2, v) :: rest else (k2, v2) :: setA rest k v

/-- An inbound request to `/api/analyze`: the `x-forwarded-for` header
and the `ai` and `url` query parameters, each absent or a string. -/
structure Request where
  xForwardedFor : Option String
  ai : Option String
  url : Option String

/-- The client identity used by the rate limiter:
`req.headers.get('x-forwarded-for') || '127.0.0.1'`. -/
def clientIp (req : Request) : String := jsOrS req.xForwardedFor "127.0.0.1"

/-- One call of the closure returned by `createRateLimiter` (`src/app.js`
lines 272–291), acting on the shared `requestCounts` map: fresh window on
a missing or expired record, rejection at count 100, increment otherwise.
The JavaScript comparison `now - record.timestamp > 60 * 1000` on a clock
reading not less than the stored timestamp coincides with the truncated
`Nat` subtraction used here (a negative difference is not `> 60000` in
JavaScript, and truncates to `0` here). -/
def rateLimiterStep (m : List (String × RateRec)) (ip : String) (now : Nat) :
    List (String × RateRec) × Bool :=
  match lookupA m ip with
  | none => (setA m ip { count := 1, timestamp := now }, true)
  | some r =>
    if now - r.timestamp > 60000 then
      (setA m ip { count := 1, timestamp := now }, true)
    else if r.count ≥ 100 then (m, false)
    else (setA m ip { count := r.count + 1, timestamp := r.timestamp }, true)

/-- Fold of the rate limiter over a sequence of request times from one
client, returning the final map and the per-request admission verdicts. -/
def runSeq (m : List (String × RateRec)) (ip : String) (ts : List Nat) :
    List (String × RateRec) × List Bool :=
  match ts with
  | [] => (m, [])
  | t :: rest =>
    let p := rateLimiterStep m ip t
    let q := runSeq p.1 ip rest
    (q.1, p.2 :: q.2)

/-- The shared mutable state of the module: the limiter's `requestCounts`
map and the `myCache` map. -/
structure ServerState where
  rateMap : List (String × RateRec)
  cache : List (String × CacheEntry)

/-- Cache lookup at time `now`: an entry is visible until the deletion
scheduled `CACHE_TTL * 1000 = 300000` milliseconds after insertion fires. -/
def cacheGet (cache : List (String × CacheEntry)) (k : String) (now : Nat) :
    Option Json :=
  match lookupA cache k with
  | none => none
  | some e => if now < e.insertedAt + 300000 then some e.value else none

/-- Template-literal interpolation of a possibly-absent string, as in the
cache key `` `analyze:$\x7bai\x7d:$\x7burl\x7d` ``: `undefined` prints as the word
`undefined`. -/
def tmplOpt (o : Option String) : String :=
  match o with
  | some s => s
  | none => "undefined"

/-- The cache key `analyze:$\x7bai\x7d:$\x7burl\x7d` of a request. -/
def cacheKeyOf (req : Request) : String :=
  "analyze:" ++ tmplOpt req.ai ++ ":" ++ req.url.getD ""

/-- An HTTP response of the handler: status and JSON body. -/
structure Response where
  status : Nat
  body : Json

/-- Observable execution trace of one handler run: whether the
fetch→extract→build pipeline ran (as opposed to a cache hit or an early
rejection), and which builder was dispatched. -/
structure Trace where
  ran : Bool
  builder : Option BuilderKind

/-- Success envelope `\x7b status: "success", data \x7d`. -/
def okBody (data : Json) : Json :=
  Json.obj [("status", Json.str "success"), ("data", data)]

/-- Error envelope `\x7b status: "error", message \x7d`. -/
def errBody (msg : String) : Json :=
  Json.obj [("status", Json.str "error"), ("message", Json.str msg)]

/-- The `/api/analyze` handler of the Deno variant of `src/app.js` (lines
295–333), for requests on that path: rate limiting, URL and mode
validation, cache lookup keyed `analyze:$\x7bai\x7d:$\x7burl\x7d`, pipeline dispatch
on a miss, cache store on success, and response shaping with a fresh
`generated_at` stamp both on hits and on misses.  The mode check
`ai && !AI_SERVICES[ai] && ai !== 'rebot'` reads `AI_SERVICES[ai]` with
JavaScript property-lookup semantics, so `Object.prototype` names pass
validation alongside the configured provider names. -/
def handler (env : Env) (st : ServerState) (req : Request) (now : Nat) :
    ServerState × Response × Trace :=
  let rl := rateLimiterStep st.rateMap (clientIp req) now
  let st1 : ServerState := { st with rateMap := rl.1 }
  if !rl.2 then
    (st1, { status := 429, body := errBody "请求过于频繁，请稍后再试" },
      { ran := false, builder := none })
  else
    let urlS := req.url.getD ""
    if !(truthy req.url && strStartsWith urlS "http") then
      (st1, { status := 400, body := errBody "无效的URL格式" },
        { ran := false, builder := none })
    else if truthy req.ai && !(aiServicesTruthy (req.ai.getD "")) &&
        !(req.ai == some "rebot") then
      (st1, { status := 400, body := errBody "无效的AI服务参数" },
        { ran := false, builder := none })
    else
      let cacheKey := cacheKeyOf req
      match cacheGet st1.cache cacheKey now with
      | some cached =>
        (st1, { status := 200, body := okBody (withGeneratedAt cached now) },
          { ran := false, builder := none })
      | none =>
        let pr := runPipeline env req.ai urlS now
        match pr.1 with
        | .error e =>
          (st1, { status := 500, body := errBody e.message },
            { ran := true, builder := pr.2 })
        | .ok result =>
          ({ st1 with
              cache := setA st1.cache cacheKey
                { value := result, insertedAt := now } },
            { status := 200, body := okBody (withGeneratedAt result now) },
            { ran := true, builder := pr.2 })

/-- The `data` member of a response body. -/
def responseData (r : Response) : Option Json := r.body.get? "data"

/-!
Concrete fixtures used to evaluate the model at specific inputs: a page
with no matching list items, pages exercising the item-building branches,
and environments whose AI provider returns specific bodies.
-/

/-- A parsed page on which every selector query is empty. -/
def emptyDom : Dom :=
  { titleText := "", mainContentHtml := none, bodyHtml := none,
    listItems := [], canonicalHref := none, ogImage := none,
    ogPublishedTime := none, metaDescription := none, faviconHref := none,
    metaKeywords := none, firstImgSrc := none }

/-- A list item with a title, an absolute link, no image, no date text and
no tag elements. -/
def plainItem : DomItem :=
  { headerText := "First Post", anchorHref := some "https://a.com/p1",
    imgSrc := none, dateText := "", tagTexts := [] }

/-- A list item whose `.date` element holds text no date parser accepts. -/
def badDateItem : DomItem :=
  { headerText := "First Post", anchorHref := some "https://a.com/p1",
    imgSrc := none, dateText := "三天前", tagTexts := [] }

/-- A page with exactly one plain list item. -/
def onePlainItemDom : Dom := { emptyDom with listItems := [plainItem] }

/-- A page with exactly one bad-date list item. -/
def badDateDom : Dom := { emptyDom with listItems := [badDateItem] }

/-- An environment for heuristic-mode runs: fetch succeeds and the page
parses to `emptyDom`. -/
def heuristicEnv : Env :=
  { apiKey := fun _ => some "test-key",
    fetchResult := fun _ => .ok "<html></html>",
    parseHtml := fun _ => emptyDom,
    aiResp := fun _ _ => { ok := true, status := 200, body := "" } }

/-- A chat-completion envelope whose message content is the two-character
string holding an empty JSON object. -/
def envelopeEmptyObj : String :=
  "\x7b\"choices\":[\x7b\"message\":\x7b\"content\":\"\x7b\x7d\"\x7d\x7d]\x7d"

/-- A chat-completion envelope whose message content decodes to a feed
document that itself carries a `generated_at` member. -/
def envelopeWithGeneratedAt : String :=
  "\x7b\"choices\":[\x7b\"message\":\x7b\"content\":\"\x7b\\\"generated_at\\\":\\\"1999-01-01T00:00:00.000Z\\\"\x7d\"\x7d\x7d]\x7d"

/-- An environment whose provider answers every call with
`envelopeEmptyObj`. -/
def aiEnvEmptyObj : Env :=
  { heuristicEnv with
    aiResp := fun _ _ => { ok := true, status := 200, body := envelopeEmptyObj } }

/-- A chat-completion envelope whose message content is the word `hello`,
which is not decodable JSON. -/
def envelopeNonJson : String :=
  "\x7b\"choices\":[\x7b\"message\":\x7b\"content\":\"hello\"\x7d\x7d]\x7d"

/-- The parsed form of `envelopeNonJson`. -/
def envelopeNonJsonData : Json :=
  Json.obj [("choices", Json.arr [Json.obj [("message",
    Json.obj [("content", Json.str "hello")])]])]

/-- An environment whose provider answers every call with
`envelopeNonJson`. -/
def aiEnvNonJson : Env :=
  { heuristicEnv with
    aiResp := fun _ _ => { ok := true, status := 200, body := envelopeNonJson } }

/-- An environment whose provider answers every call with
`envelopeWithGeneratedAt`. -/
def aiEnvGeneratedAt : Env :=
  { heuristicEnv with
    aiResp := fun _ _ => { ok := true, status := 200, body := envelopeWithGeneratedAt } }

/-- The empty server state at process start. -/
def emptyState : ServerState := { rateMap := [], cache := [] }

/-- A state whose cache already holds a document for `plainUrlReq`. -/
def c10state : ServerState :=
  { rateMap := [],
    cache := [("analyze:undefined:https://a.com/",
      { value := Json.obj [("title", Json.str "t")], insertedAt := 0 })] }

/-- The content record of a whole-page request against `emptyDom`. -/
def emptyContent : Content := extractMainContent emptyDom "https://a.com/"

/-- A request with no forwarding header and no query parameters. -/
def bareReq : Request := { xForwardedFor := none, ai := none, url := none }

/-- A headerless request with mode `auto` and a valid URL. -/
def autoModeReq : Request :=
  { xForwardedFor := none, ai := some "auto", url := some "https://a.com/" }

/-- A headerless request with no mode and a URL that merely starts with
the four letters `http` without being an `http://` or `https://` URL. -/
def weakUrlReq : Request :=
  { xForwardedFor := none, ai := none, url := some "httpgarbage" }

/-- A headerless request with no mode and a valid absolute URL. -/
def plainUrlReq : Request :=
  { xForwardedFor := none, ai := none, url := some "https://a.com/" }

/-- A headerless request for the `openai` provider and a valid URL. -/
def openaiReq : Request :=
  { xForwardedFor := none, ai := some "openai", url := some "https://a.com/" }

/-- A headerless heuristic-mode request for a valid absolute URL. -/
def rebotReq : Request :=
  { xForwardedFor := none, ai := some "rebot", url := some "https://b.example/" }

/-- An environment whose fetch capability behaves as a real `fetch`
would on the URL shape alone: it rejects any request string that is not
an absolute `http://` or `https://` URL (a `TypeError`, there being no
base URL to resolve against) and succeeds on absolute ones with an empty
page; no provider credential is configured. -/
def strictFetchEnv : Env :=
  { apiKey := fun _ => none,
    fetchResult := fun u =>
      if strStartsWith u "http://" || strStartsWith u "https://" then
        .ok "<html></html>"
      else .error (.jsError "TypeError: Invalid URL"),
    parseHtml := fun _ => emptyDom,
    aiResp := fun _ _ => { ok := true, status := 200, body := "" } }

/-- A headerless request whose mode is the `Object.prototype` name
`toString` — not a configured provider, not `auto`, not `rebot` — with a
valid URL. -/
def protoModeReq : Request :=
  { xForwardedFor := none, ai := some "toString", url := some "https://a.com/" }

/-- The document the pipeline builds for `plainUrlReq` at time 0 (the
match totalizes the definition; on this input the pipeline succeeds and
the error arm is unreachable). -/
def c1result : Json :=
  match (runPipeline heuristicEnv none "https://a.com/" 0).1 with
  | .ok j => j
  | .error _ => Json.null

/-!
Theorems.  First the calendar facts backing the `generated_at` stamp
claims, then structural lemmas about the handler's data plumbing, then
the claim theorems.
-/

theorem yoeSearch_le (doe n : Nat) : yoeSearch doe n ≤ n := by
  induction n with
  | zero => simp [yoeSearch]
  | succ y ih =>
    simp only [yoeSearch]
    split
    · exact Nat.le_refl _
    · exact Nat.le_succ_of_le ih

theorem yoeSearch_fdoe_le (doe n : Nat) : fdoe (yoeSearch doe n) ≤ doe := by
  induction n with
  | zero => simp [yoeSearch, fdoe]
  | succ y ih =>
    simp only [yoeSearch]
    split
    · assumption
    · exact ih

theorem yoeSearch_max (doe n y : Nat) (hyn : y ≤ n) (hy : fdoe y ≤ doe) :
    y ≤ yoeSearch doe n := by
  induction n with
  | zero => omega
  | succ m ih =>
    simp only [yoeSearch]
    split
    · omega
    · rcases Nat.lt_or_ge y (m + 1) with h | h
      · exact ih (by omega)
      · have he : y = m + 1 := by omega
        subst he
        omega

theorem mpSearch_le (doy n : Nat) : mpSearch doy n ≤ n := by
  induction n with
  | zero => simp [mpSearch]
  | succ m ih =>
    simp only [mpSearch]
    split
    · exact Nat.le_refl _
    · exact Nat.le_succ_of_le ih

theorem mpSearch_start_le (doy n : Nat) : dayStart (mpSearch doy n) ≤ doy := by
  induction n with
  | zero => simp [mpSearch, dayStart]
  | succ m ih =>
    simp only [mpSearch]
    split
    · assumption
    · exact ih

theorem mpSearch_max (doy n m : Nat) (hmn : m ≤ n) (hm : dayStart m ≤ doy) :
    m ≤ mpSearch doy n := by
  induction n with
  | zero => omega
  | succ k ih =>
    simp only [mpSearch]
    split
    · omega
    · rcases Nat.lt_or_ge m (k + 1) with h | h
      · exact ih (by omega)
      · have he : m = k + 1 := by omega
        subst he
        omega

theorem doyZ_le (z : Nat) : doyZ z ≤ 365 := by
  have hdoe : doeOf z < 146097 := Nat.mod_lt _ (by norm_num)
  have h1 := yoeSearch_fdoe_le (doeOf z) 399
  have h2 := yoeSearch_le (doeOf z) 399
  unfold doyZ yoeZ yoeOfDoe
  rcases Nat.lt_or_ge (yoeSearch (doeOf z) 399) 399 with hlt | hge
  · have h4 : ¬ fdoe (yoeSearch (doeOf z) 399 + 1) ≤ doeOf z := by
      intro hc
      have := yoeSearch_max (doeOf z) 399 _ (by omega) hc
      omega
    unfold fdoe at h1 h4 ⊢
    omega
  · have he : yoeSearch (doeOf z) 399 = 399 := by omega
    rw [he]
    unfold fdoe
    omega

theorem mpZ_le (z : Nat) : mpZ z ≤ 11 := by
  unfold mpZ mpOfDoy
  exact mpSearch_le _ 11

theorem dayStart_mpZ_le (z : Nat) : dayStart (mpZ z) ≤ doyZ z := by
  unfold mpZ mpOfDoy
  exact mpSearch_start_le _ 11

theorem fdoe_yoeZ_le (z : Nat) : fdoe (yoeZ z) ≤ doeOf z := by
  unfold yoeZ yoeOfDoe
  exact yoeSearch_fdoe_le _ 399

theorem yoeZ_le (z : Nat) : yoeZ z ≤ 399 := by
  unfold yoeZ yoeOfDoe
  exact yoeSearch_le _ 399

theorem doyZ_eq (z : Nat) : doyZ z = doeOf z - fdoe (yoeZ z) := rfl

theorem era_doe (z : Nat) : eraOf z * 146097 + doeOf z = z + 719468 := by
  unfold eraOf doeOf
  omega

theorem civil_roundtrip (z : Nat) :
    civilToDays (yearZ z) (monthZ z) (dayZ z) = z := by
  have h1 := fdoe_yoeZ_le z
  have h2 := yoeZ_le z
  have h5 := dayStart_mpZ_le z
  have h6 := mpZ_le z
  have h7 := doyZ_eq z
  have h8 := era_doe z
  have hm : monthZ z = if mpZ z < 10 then mpZ z + 3 else mpZ z - 9 := rfl
  have hy : yearZ z = yoeZ z + eraOf z * 400 + (if monthZ z ≤ 2 then 1 else 0) :=
    rfl
  have hd : dayZ z = doyZ z - dayStart (mpZ z) + 1 := rfl
  rw [hy, hd]
  generalize hdoe : doeOf z = doe at h1 h7 h8
  generalize hera : eraOf z = era at h8 ⊢
  generalize hyoe : yoeZ z = yoe at h1 h2 h7 ⊢
  generalize hdoy : doyZ z = doy at h5 h7 ⊢
  generalize hmp : mpZ z = mp at h5 h6 hm ⊢
  generalize hmon : monthZ z = m at hm ⊢
  unfold civilToDays
  simp only
  rcases Nat.lt_or_ge mp 10 with h | h
  · rw [if_pos h] at hm
    subst hm
    rw [if_pos (by omega : mp + 3 > 2)]
    have hmp3 : mp + 3 - 3 = mp := by omega
    rw [hmp3]
    rw [if_neg (by omega : ¬ mp + 3 ≤ 2)]
    have h400 : (yoe + era * 400 + 0 - 0) / 400 = era := by omega
    have h400b : (yoe + era * 400 + 0 - 0) % 400 = yoe := by omega
    simp only [Nat.sub_zero] at h400 h400b ⊢
    rw [h400, h400b]
    have hf : yoe * 365 + yoe / 4 - yoe / 100 = fdoe yoe := by
      unfold fdoe
      omega
    rw [hf]
    omega
  · rw [if_neg (by omega : ¬ mp < 10)] at hm
    subst hm
    rw [if_pos (by omega : mp - 9 ≤ 2), if_neg (by omega : ¬ mp - 9 > 2)]
    have hmp9 : mp - 9 + 9 = mp := by omega
    rw [hmp9]
    have h400 : (yoe + era * 400 + 1 - 1) / 400 = era := by omega
    have h400b : (yoe + era * 400 + 1 - 1) % 400 = yoe := by omega
    rw [h400, h400b]
    have hf : yoe * 365 + yoe / 4 - yoe / 100 = fdoe yoe := by
      unfold fdoe
      omega
    rw [hf]
    omega

theorem monthZ_bounds (z : Nat) : 1 ≤ monthZ z ∧ monthZ z ≤ 12 := by
  have h6 := mpZ_le z
  unfold monthZ
  split <;> omega

theorem dayZ_le (z : Nat) : dayZ z ≤ 31 := by
  have h5 := dayStart_mpZ_le z
  have h6 := mpZ_le z
  have hdoy := doyZ_le z
  unfold dayZ
  rcases Nat.lt_or_ge (mpZ z) 11 with h | h
  · have hmax : ¬ dayStart (mpZ z + 1) ≤ doyZ z := by
      intro hc
      have hle := mpSearch_max (doyZ z) 11 (mpZ z + 1) (by omega) hc
      have he : mpZ z = mpSearch (doyZ z) 11 := rfl
      omega
    have hgap : dayStart (mpZ z + 1) ≤ dayStart (mpZ z) + 31 := by
      unfold dayStart
      omega
    omega
  · have h11 : mpZ z = 11 := by omega
    rw [h11] at h5 ⊢
    have hds : dayStart 11 = 337 := by norm_num [dayStart]
    rw [hds] at h5 ⊢
    omega

theorem yearZ_le (z : Nat) (hz : z ≤ 2932896) : yearZ z ≤ 9999 := by
  have h1 := fdoe_yoeZ_le z
  have h2 := yoeZ_le z
  have h5 := dayStart_mpZ_le z
  have h6 := mpZ_le z
  have h7 := doyZ_eq z
  unfold yearZ monthZ
  rcases Nat.lt_or_ge (mpZ z) 10 with h | h
  · rw [if_pos h, if_neg (by omega : ¬ mpZ z + 3 ≤ 2)]
    unfold eraOf
    omega
  · rw [if_neg (by omega : ¬ mpZ z < 10), if_pos (by omega : mpZ z - 9 ≤ 2)]
    have hm1011 : mpZ z = 10 ∨ mpZ z = 11 := by omega
    have hds : 306 ≤ dayStart (mpZ z) := by
      rcases hm1011 with he | he <;> rw [he] <;> norm_num [dayStart]
    rcases Nat.lt_or_ge (yoeZ z) 399 with hy | hy
    · unfold eraOf
      omega
    · have hy399 : yoeZ z = 399 := by omega
      have hf399 : fdoe 399 = 145731 := by norm_num [fdoe]
      rw [hy399] at h1 h7
      rw [hf399] at h1 h7
      rw [hy399]
      unfold doeOf at h1 h7
      unfold eraOf
      omega

theorem digitChar_inj : ∀ a < 10, ∀ b < 10,
    Nat.digitChar a = Nat.digitChar b → a = b := by decide

theorem toISOString_inj (t1 t2 : Nat)
    (h1 : t1 < 253402300800000) (h2 : t2 < 253402300800000)
    (he : toISOString t1 = toISOString t2) : t1 = t2 := by
  unfold toISOString at he
  have he2 := congrArg String.data he
  simp only [pad4, pad2, pad3, List.cons_append, List.nil_append,
    List.cons.injEq, and_true] at he2
  obtain ⟨a1, a2, a3, a4, -, b1, b2, -, c1, c2, -, d1, d2, -, e1, e2, -,
    f1, f2, -, g1, g2, g3⟩ := he2
  have hyear : yearZ (t1 / 86400000) = yearZ (t2 / 86400000) := by
    have bb1 := yearZ_le (t1 / 86400000) (by omega)
    have bb2 := yearZ_le (t2 / 86400000) (by omega)
    have q1 := digitChar_inj _ (by omega) _ (by omega) a1
    have q2 := digitChar_inj _ (by omega) _ (by omega) a2
    have q3 := digitChar_inj _ (by omega) _ (by omega) a3
    have q4 := digitChar_inj _ (by omega) _ (by omega) a4
    omega
  have hmonth : monthZ (t1 / 86400000) = monthZ (t2 / 86400000) := by
    have bb1 := monthZ_bounds (t1 / 86400000)
    have bb2 := monthZ_bounds (t2 / 86400000)
    have q1 := digitChar_inj _ (by omega) _ (by omega) b1
    have q2 := digitChar_inj _ (by omega) _ (by omega) b2
    omega
  have hday : dayZ (t1 / 86400000) = dayZ (t2 / 86400000) := by
    have bb1 := dayZ_le (t1 / 86400000)
    have bb2 := dayZ_le (t2 / 86400000)
    have q1 := digitChar_inj _ (by omega) _ (by omega) c1
    have q2 := digitChar_inj _ (by omega) _ (by omega) c2
    omega
  have hdays : t1 / 86400000 = t2 / 86400000 := by
    have rt1 := civil_roundtrip (t1 / 86400000)
    have rt2 := civil_roundtrip (t2 / 86400000)
    rw [hyear, hmonth, hday] at rt1
    omega
  have hrem : t1 % 86400000 = t2 % 86400000 := by
    have q1 := digitChar_inj _ (by omega) _ (by omega) d1
    have q2 := digitChar_inj _ (by omega) _ (by omega) d2
    have q3 := digitChar_inj _ (by omega) _ (by omega) e1
    have q4 := digitChar_inj _ (by omega) _ (by omega) e2
    have q5 := digitChar_inj _ (by omega) _ (by omega) f1
    have q6 := digitChar_inj _ (by omega) _ (by omega) f2
    have q7 := digitChar_inj _ (by omega) _ (by omega) g1
    have q8 := digitChar_inj _ (by omega) _ (by omega) g2
    have q9 := digitChar_inj _ (by omega) _ (by omega) g3
    omega
  omega

theorem lookupA_setA {α : Type} (m : List (String × α)) (k : String) (v : α) :
    lookupA (setA m k v) k = some v := by
  induction m with
  | nil => simp [setA, lookupA]
  | cons p rest ih =>
    obtain ⟨k2, v2⟩ := p
    simp only [setA]
    split
    · simp_all [lookupA]
    · simp_all [lookupA]

theorem lookupA_setA_ne {α : Type} (m : List (String × α)) (k k2 : String)
    (v : α) (h : k2 ≠ k) : lookupA (setA m k v) k2 = lookupA m k2 := by
  induction m with
  | nil =>
    simp only [setA, lookupA]
    rw [if_neg (fun hc => h hc.symm)]
  | cons p rest ih =>
    obtain ⟨k3, v3⟩ := p
    simp only [setA]
    split
    · subst_vars
      simp only [lookupA]
      have hne : ¬ k3 = k2 := fun hc => h hc.symm
      simp only [if_neg hne]
    · simp only [lookupA]
      split
      · rfl
      · exact ih

theorem getField_setField (fs : List (String × Json)) (k : String) (v : Json) :
    (Json.obj (setField fs k v)).get? k = some v := by
  induction fs with
  | nil => simp [setField, Json.get?]
  | cons p rest ih =>
    obtain ⟨k2, v2⟩ := p
    simp only [setField]
    split
    · subst_vars
      simp [Json.get?]
    · simp only [Json.get?, List.find?] at ih ⊢
      have hne : (k2 == k) = false := by
        simp only [beq_eq_false_iff_ne, ne_eq]
        intro hc
        simp_all
      rw [hne]
      exact ih

theorem eraseField_setField (fs : List (String × Json)) (k : String) (v : Json) :
    eraseField (setField fs k v) k = eraseField fs k := by
  induction fs with
  | nil => simp [setField, eraseField]
  | cons p rest ih =>
    obtain ⟨k2, v2⟩ := p
    simp only [setField]
    split
    · subst_vars
      simp [eraseField]
    · simp only [eraseField, List.filter] at ih ⊢
      split <;> simp_all

theorem mapIdxE_length (f : Nat → DomItem → Except JsError FeedItem) :
    ∀ (xs : List DomItem) (i : Nat) (ys : List FeedItem),
      mapIdxE f i xs = .ok ys → ys.length = xs.length := by
  intro xs
  induction xs with
  | nil =>
    intro i ys h
    simp only [mapIdxE] at h
    cases h
    rfl
  | cons x rest ih =>
    intro i ys h
    simp only [mapIdxE] at h
    cases hf : f i x with
    | error e => rw [hf] at h; cases h
    | ok y =>
      rw [hf] at h
      cases hr : mapIdxE f (i + 1) rest with
      | error e => rw [hr] at h; cases h
      | ok ys2 =>
        rw [hr] at h
        cases h
        simp [List.length_cons, ih (i + 1) ys2 hr]

theorem mapIdxE_mem (f : Nat → DomItem → Except JsError FeedItem) :
    ∀ (xs : List DomItem) (i : Nat) (ys : List FeedItem),
      mapIdxE f i xs = .ok ys → ∀ y ∈ ys, ∃ j x, x ∈ xs ∧ f j x = .ok y := by
  intro xs
  induction xs with
  | nil =>
    intro i ys h y hy
    simp only [mapIdxE] at h
    cases h
    cases hy
  | cons x rest ih =>
    intro i ys h y hy
    simp only [mapIdxE] at h
    cases hf : f i x with
    | error e => rw [hf] at h; cases h
    | ok y0 =>
      rw [hf] at h
      cases hr : mapIdxE f (i + 1) rest with
      | error e => rw [hr] at h; cases h
      | ok ys2 =>
        rw [hr] at h
        cases h
        rcases List.mem_cons.mp hy with he | hm
        · exact ⟨i, x, List.mem_cons_self _ _, by rw [hf, he]⟩
        · obtain ⟨j, x2, hx2, hfx2⟩ := ih (i + 1) ys2 hr y hm
          exact ⟨j, x2, List.mem_cons_of_mem _ hx2, hfx2⟩

theorem strMk_ne_empty (cs : List Char) (h : cs ≠ []) : String.mk cs ≠ "" :=
  fun hc => h (congrArg String.data hc)

theorem parseAbs_nonempty (s : String) (u : UrlRec) (h : parseAbs s = some u) :
    u.scheme ≠ "" ∧ u.host ≠ "" := by
  unfold parseAbs at h
  cases hs : splitSchemeChars s.data with
  | none => rw [hs] at h; cases h
  | some p =>
    rw [hs] at h
    obtain ⟨schemeCs, rest⟩ := p
    dsimp only at h
    by_cases hg : schemeOk schemeCs = true
    · rw [if_pos hg] at h
      by_cases hh : (splitHostChars rest).1.isEmpty = true
      · rw [if_pos hh] at h
        cases h
      · rw [if_neg hh] at h
        simp only [Option.some.injEq] at h
        subst h
        constructor
        · apply strMk_ne_empty
          unfold schemeOk at hg
          simp only [Bool.and_eq_true, Bool.not_eq_true] at hg
          intro hc
          rw [hc] at hg
          simp at hg
        · apply strMk_ne_empty
          intro hc
          rw [hc] at hh
          simp at hh
    · rw [if_neg hg] at h
      cases h

theorem resolveURL_abs (x b s : String) (h : resolveURL x b = some s) :
    IsAbsUrl s := by
  unfold resolveURL at h
  cases hx : parseAbs x with
  | some u =>
    rw [hx] at h
    simp only [Option.some.injEq] at h
    obtain ⟨h1, h2⟩ := parseAbs_nonempty x u hx
    exact ⟨u, h.symm, h1, h2⟩
  | none =>
    rw [hx] at h
    cases hb : parseAbs b with
    | none => rw [hb] at h; cases h
    | some bu =>
      rw [hb] at h
      obtain ⟨hb1, hb2⟩ := parseAbs_nonempty b bu hb
      dsimp only at h
      split at h
      · simp only [Option.some.injEq] at h
        exact ⟨_, h.symm, hb1, hb2⟩
      · split at h
        · cases hp : parseAbs (bu.scheme ++ ":" ++ x) with
          | none =>
            rw [hp] at h
            cases h
          | some u2 =>
            rw [hp] at h
            simp only [Option.map_some', Option.some.injEq] at h
            obtain ⟨g1, g2⟩ := parseAbs_nonempty _ u2 hp
            exact ⟨u2, h.symm, g1, g2⟩
        · split at h
          · simp only [Option.some.injEq] at h
            exact ⟨_, h.symm, hb1, hb2⟩
          · split at h
            · simp only [Option.some.injEq] at h
              exact ⟨_, h.symm, hb1, hb2⟩
            · split at h
              · simp only [Option.some.injEq] at h
                exact ⟨_, h.symm, hb1, hb2⟩
              · simp only [Option.some.injEq] at h
                exact ⟨_, h.symm, hb1, hb2⟩

theorem runSeq_append (m : List (String × RateRec)) (ip : String)
    (xs ys : List Nat) :
    runSeq m ip (xs ++ ys) =
      ((runSeq (runSeq m ip xs).1 ip ys).1,
        (runSeq m ip xs).2 ++ (runSeq (runSeq m ip xs).1 ip ys).2) := by
  induction xs generalizing m with
  | nil => simp [runSeq]
  | cons t rest ih =>
    simp only [List.cons_append, runSeq]
    simp only [List.append_eq]
    rw [ih]

theorem rateLimiterStep_increment (m : List (String × RateRec)) (ip : String)
    (t t0 k : Nat) (h1 : lookupA m ip = some { count := k, timestamp := t0 })
    (hw : t - t0 ≤ 60000) (hk : k < 100) :
    rateLimiterStep m ip t =
      (setA m ip { count := k + 1, timestamp := t0 }, true) := by
  unfold rateLimiterStep
  rw [h1]
  simp only
  rw [if_neg (by omega : ¬ t - t0 > 60000), if_neg (by omega : ¬ k ≥ 100)]

theorem rateLimiterStep_reject (m : List (String × RateRec)) (ip : String)
    (t t0 : Nat) (h1 : lookupA m ip = some { count := 100, timestamp := t0 })
    (hw : t - t0 ≤ 60000) :
    rateLimiterStep m ip t = (m, false) := by
  unfold rateLimiterStep
  rw [h1]
  simp only
  rw [if_neg (by omega : ¬ t - t0 > 60000), if_pos (by omega : 100 ≥ 100)]

theorem runSeq_count (ip : String) (t0 : Nat) :
    ∀ (ts : List Nat) (m : List (String × RateRec)) (k : Nat),
      lookupA m ip = some { count := k, timestamp := t0 } →
      1 ≤ k → k + ts.length ≤ 100 → (∀ t ∈ ts, t - t0 ≤ 60000) →
      (runSeq m ip ts).2 = List.replicate ts.length true ∧
        lookupA (runSeq m ip ts).1 ip =
          some { count := k + ts.length, timestamp := t0 } := by
  intro ts
  induction ts with
  | nil =>
    intro m k h1 h2 h3 h4
    simp [runSeq, h1]
  | cons t rest ih =>
    intro m k h1 h2 h3 h4
    have hstep := rateLimiterStep_increment m ip t t0 k h1
      (h4 t (List.mem_cons_self _ _)) (by simp at h3; omega)
    have hnext := ih (setA m ip { count := k + 1, timestamp := t0 }) (k + 1)
      (lookupA_setA m ip _) (by omega) (by simp at h3 ⊢; omega)
      (fun t2 ht2 => h4 t2 (List.mem_cons_of_mem _ ht2))
    simp only [runSeq, hstep]
    constructor
    · simp [hnext.1, List.replicate_succ]
    · have harith : k + 1 + rest.length = k + (rest.length + 1) := by omega
      rw [harith] at hnext
      simpa using hnext.2

theorem buildItem_ok (c : Content) (now idx : Nat) (item : DomItem)
    (y : FeedItem) (h : buildItem c now idx item = .ok y) :
    resolveURL (jsOrS item.anchorHref (jsOrS c.dom.canonicalHref c.url)) c.url =
      some y.url ∧
    resolveURL (jsOrS item.imgSrc (jsOrS c.dom.ogImage "")) c.url = some y.image ∧
    y.tags = item.tagTexts.take 5 := by
  simp only [buildItem] at h
  cases h1 : resolveURL (jsOrS item.anchorHref (jsOrS c.dom.canonicalHref c.url))
      c.url with
  | none => rw [h1] at h; cases h
  | some u =>
    rw [h1] at h
    cases h2 : resolveURL (jsOrS item.imgSrc (jsOrS c.dom.ogImage "")) c.url with
    | none => rw [h2] at h; cases h
    | some v =>
      rw [h2] at h
      cases h3 : jsDateParse (if item.dateText.isEmpty then
          jsOrS c.dom.ogPublishedTime (toISOString now) else item.dateText) with
      | none => rw [h3] at h; cases h
      | some ms =>
        rw [h3] at h
        cases h
        exact ⟨rfl, rfl, rfl⟩

theorem autoExtract_items (c : Content) (now : Nat) (f : Feed)
    (h : autoExtractContent c now = .ok f) :
    (∃ items, mapIdxE (buildItem c now) 0 c.dom.listItems = .ok items ∧
      f.items = if items.length > 0 then items else [syntheticItem c now]) := by
  unfold autoExtractContent at h
  cases hm : mapIdxE (buildItem c now) 0 c.dom.listItems with
  | error e => rw [hm] at h; cases h
  | ok items =>
    rw [hm] at h
    cases h
    exact ⟨items, rfl, rfl⟩

theorem modeCond_false (ai : Option String)
    (h : (truthy ai && !(aiServiceNames.contains (ai.getD "")) &&
      !(ai == some "rebot")) = false) :
    (truthy ai && !(aiServicesTruthy (ai.getD "")) &&
      !(ai == some "rebot")) = false := by
  unfold aiServicesTruthy
  cases h1 : truthy ai <;>
    cases h2 : aiServiceNames.contains (ai.getD "") <;>
    cases h3 : objectProtoKeys.contains (ai.getD "") <;>
    cases h4 : ai == some "rebot" <;>
    simp_all

/-- C4: on a page whose single list item carries date text no date parser
accepts, the heuristic builder does not fall back to "now": it throws a
`RangeError` (surfaced by the handler as a 500), because the source calls
`new Date(itemDate).toISOString()` on an Invalid Date.  The same page
with the date element absent builds successfully, isolating the failure
to the unparseable date text. -/
theorem c4_unparseable_date_eval :
    autoExtractContent (extractMainContent badDateDom "https://a.com/") 0 =
      .error (.jsError "RangeError: Invalid time value") ∧
    ∃ f, autoExtractContent (extractMainContent onePlainItemDom "https://a.com/") 0 =
      .ok f := by
  exact ⟨rfl, ⟨_, rfl⟩⟩

/-- C6: when no list-container selector matched any element, the
heuristic builder returns exactly one synthetic whole-page item; and on
any input on which it returns at all, the items array is nonempty. -/
theorem c6_synthetic_single_item :
    (∀ (c : Content) (now : Nat), c.dom.listItems = [] →
      ∃ f, autoExtractContent c now = .ok f ∧
        f.items = [syntheticItem c now] ∧ f.items.length = 1) ∧
    (∀ (c : Content) (now : Nat) (f : Feed),
      autoExtractContent c now = .ok f → f.items ≠ []) := by
  constructor
  · intro c now h
    unfold autoExtractContent
    rw [h]
    exact ⟨_, rfl, rfl, rfl⟩
  · intro c now f h
    obtain ⟨items, hm, hf⟩ := autoExtract_items c now f h
    rw [hf]
    split
    · intro hc
      subst hc
      simp at *
    · simp

/-- C6 witness: the synthetic single-item feed at a concrete page with no
matching list containers. -/
theorem c6_synthetic_single_item_witness :
    ∃ f, autoExtractContent emptyContent 0 = .ok f ∧
      f.items = [syntheticItem emptyContent 0] ∧ f.items.length = 1 :=
  c6_synthetic_single_item.1 emptyContent 0 rfl

/-- C7: every emitted item has at most five tags, but the second half of
the claim fails on the code: an item with no tag/category/keyword
elements gets an empty tags array, not a placeholder — the source's
fallback `.slice(0, 5) || ['默认标签']` is dead code because a JavaScript
array is always truthy.  The concrete evaluation exhibits the empty tags
array the claim says cannot occur. -/
theorem c7_tags_bounded_but_empty :
    (∀ (c : Content) (now : Nat) (f : Feed),
      autoExtractContent c now = .ok f →
      ∀ it ∈ f.items, it.tags.length ≤ 5) ∧
    (∃ f, autoExtractContent (extractMainContent onePlainItemDom "https://a.com/") 0 =
      .ok f ∧ f.items.map FeedItem.tags = [[]]) := by
  constructor
  · intro c now f h it hit
    obtain ⟨items, hm, hf⟩ := autoExtract_items c now f h
    rw [hf] at hit
    split at hit
    · obtain ⟨j, x, hx, hfx⟩ := mapIdxE_mem _ _ _ _ hm it hit
      obtain ⟨-, -, htags⟩ := buildItem_ok c now j x it hfx
      rw [htags]
      have := List.length_take_le 5 x.tagTexts
      omega
    · rcases List.mem_singleton.mp hit with rfl
      unfold syntheticItem
      cases c.dom.metaKeywords with
      | none => simp
      | some s =>
        simp only
        have := List.length_take_le 5 (splitOnC s ',')
        omega
  · exact ⟨_, rfl, rfl⟩

/-- C7 witness: the bound applied at the concrete one-item page. -/
theorem c7_tags_bounded_but_empty_witness :
    ∀ (f : Feed),
      autoExtractContent (extractMainContent onePlainItemDom "https://a.com/") 0 =
        .ok f → ∀ it ∈ f.items, it.tags.length ≤ 5 :=
  fun f h => c7_tags_bounded_but_empty.1 _ 0 f h

/-- C9: a request without an `x-forwarded-for` header is keyed under the
fixed client identifier `127.0.0.1`, so all such requests share one rate
window: two of them arriving within the window from a fresh state leave a
single record with count 2, both admitted. -/
theorem c9_default_client_ip :
    (∀ req : Request, req.xForwardedFor = none → clientIp req = "127.0.0.1") ∧
    (∀ (r1 r2 : Request) (t1 t2 : Nat), r1.xForwardedFor = none →
      r2.xForwardedFor = none → t2 - t1 ≤ 60000 →
      (rateLimiterStep [] (clientIp r1) t1).2 = true ∧
      (rateLimiterStep (rateLimiterStep [] (clientIp r1) t1).1
        (clientIp r2) t2).2 = true ∧
      (rateLimiterStep (rateLimiterStep [] (clientIp r1) t1).1
        (clientIp r2) t2).1 =
        [("127.0.0.1", { count := 2, timestamp := t1 })]) := by
  have hkey : ∀ req : Request, req.xForwardedFor = none →
      clientIp req = "127.0.0.1" := by
    intro req h
    unfold clientIp
    rw [h]
    rfl
  refine ⟨hkey, ?_⟩
  intro r1 r2 t1 t2 h1 h2 hw
  rw [hkey r1 h1, hkey r2 h2]
  have e1 : rateLimiterStep [] "127.0.0.1" t1 =
      ([("127.0.0.1", { count := 1, timestamp := t1 })], true) := rfl
  rw [e1]
  have e2 := rateLimiterStep_increment
    [("127.0.0.1", { count := 1, timestamp := t1 })] "127.0.0.1" t2 t1 1
    rfl hw (by omega)
  rw [e2]
  exact ⟨rfl, rfl, rfl⟩

/-- C9 witness: two concrete headerless requests at times 0 and 1. -/
theorem c9_default_client_ip_witness :
    (rateLimiterStep [] (clientIp bareReq) 0).2 = true ∧
    (rateLimiterStep (rateLimiterStep [] (clientIp bareReq) 0).1
      (clientIp rebotReq) 1).2 = true ∧
    (rateLimiterStep (rateLimiterStep [] (clientIp bareReq) 0).1
      (clientIp rebotReq) 1).1 =
      [("127.0.0.1", { count := 2, timestamp := 0 })] :=
  c9_default_client_ip.2 bareReq rebotReq 0 1 rfl rfl (by omega)

/-- C2: from a state with no window for the client, 101 requests inside
one 60-second window are admitted for the first 100 and rejected on the
101st; and any request arriving strictly after a window's boundary starts
a fresh window with count 1 and is admitted. -/
theorem c2_rate_limit_window :
    (∀ (m : List (String × RateRec)) (ip : String) (t1 tlast : Nat)
      (ts : List Nat),
      lookupA m ip = none → ts.length = 99 →
      (∀ t ∈ ts, t - t1 ≤ 60000) → tlast - t1 ≤ 60000 →
      (runSeq m ip (t1 :: (ts ++ [tlast]))).2 =
        true :: (List.replicate 99 true ++ [false])) ∧
    (∀ (m : List (String × RateRec)) (ip : String) (r : RateRec) (t : Nat),
      lookupA m ip = some r → r.timestamp + 60000 < t →
      rateLimiterStep m ip t =
        (setA m ip { count := 1, timestamp := t }, true)) := by
  constructor
  · intro m ip t1 tlast ts h0 hlen hin hlast
    have e1 : rateLimiterStep m ip t1 =
        (setA m ip { count := 1, timestamp := t1 }, true) := by
      unfold rateLimiterStep
      rw [h0]
    have hc := runSeq_count ip t1 ts (setA m ip { count := 1, timestamp := t1 })
      1 (lookupA_setA m ip _) (Nat.le_refl 1) (by omega) hin
    rw [hlen] at hc
    have hcount : lookupA (runSeq (setA m ip { count := 1, timestamp := t1 })
        ip ts).1 ip = some { count := 100, timestamp := t1 } := by
      rw [hc.2]
    have e2 := rateLimiterStep_reject
      (runSeq (setA m ip { count := 1, timestamp := t1 }) ip ts).1 ip tlast t1
      hcount hlast
    simp only [runSeq, e1]
    rw [runSeq_append]
    simp only [runSeq, e2, hc.1, hlen]
  · intro m ip r t h hb
    unfold rateLimiterStep
    rw [h]
    simp only
    rw [if_pos (by omega : t - r.timestamp > 60000)]

/-- C2 witness: 101 concrete back-to-back requests from one client, then
a boundary-crossing request resetting the window. -/
theorem c2_rate_limit_window_witness :
    (runSeq [] "c" (0 :: (List.replicate 99 0 ++ [0]))).2 =
      true :: (List.replicate 99 true ++ [false]) ∧
    rateLimiterStep [("c", { count := 7, timestamp := 0 })] "c" 60001 =
      (setA [("c", { count := 7, timestamp := 0 })] "c"
        { count := 1, timestamp := 60001 }, true) := by
  constructor
  · exact c2_rate_limit_window.1 [] "c" 0 0 (List.replicate 99 0) rfl
      (by simp) (fun t ht => by simp at ht; omega) (by omega)
  · exact c2_rate_limit_window.2 _ "c" _ 60001 rfl (by decide)

/-- C8 counterexample: a provider whose message content decodes to the
empty JSON object — a structure missing every required feed field — does
not produce a `ParseError`: `processWithAI` returns the empty object as
the result, refuting the claim's "exactly when ... or decodes to a
structure missing required feed fields". -/
theorem c8_missing_fields_counterexample :
    processWithAI aiEnvEmptyObj "openai" emptyContent = .ok (Json.obj []) := rfl

/-- C8 amended: for a configured provider with a credential and an OK
response whose body decodes, `processWithAI` fails with the
`AI返回结果解析失败` error exactly when the envelope access
`data.choices[0].message.content` faults or the content does not decode
as JSON; no required-field validation is performed on a decodable
content.  In particular a non-JSON message content yields this error and
never a raw parse exception. -/
theorem c8_parse_error_characterization :
    ∀ (env : Env) (name : String) (content : Content) (data : Json),
      aiServiceNames.contains name = true →
      truthy (env.apiKey name) = true →
      (env.aiResp name content).ok = true →
      Json.parse (env.aiResp name content).body = some data →
      (processWithAI env name content =
          .error (.jsError "AI返回结果解析失败") ↔
        msgContent data = none ∨
          ∃ c2, msgContent data = some c2 ∧ Json.parse (jsToString c2) = none) := by
  intro env name content data hsvc hkey hok hparse
  unfold processWithAI aiServicesTruthy
  rw [hsvc, hkey]
  simp only [Bool.true_or, Bool.true_and, Bool.not_true, Bool.false_eq_true,
    if_false]
  rw [hok]
  simp only [Bool.not_true, Bool.false_eq_true, if_false]
  rw [hparse]
  cases hm : msgContent data with
  | none =>
    simp only [hm]
    constructor
    · intro
      exact Or.inl trivial
    · intro
      trivial
  | some c2 =>
    cases hp : Json.parse (jsToString c2) with
    | none =>
      simp only [hm, hp]
      constructor
      · intro
        exact Or.inr ⟨c2, rfl, hp⟩
      · intro
        trivial
    | some j =>
      simp only [hm, hp]
      constructor
      · intro hc
        cases hc
      · rintro (hc | ⟨c3, hc3, hp3⟩)
        · cases hc
        · rw [Option.some.injEq] at hc3
          subst hc3
          rw [hp] at hp3
          cases hp3

/-- C8 witness: a provider returning the non-JSON content `hello` yields
the `ParseError`-equivalent error through the characterization. -/
theorem c8_parse_error_characterization_witness :
    processWithAI aiEnvNonJson "openai" emptyContent =
      .error (.jsError "AI返回结果解析失败") := by
  have h := c8_parse_error_characterization aiEnvNonJson "openai" emptyContent
    envelopeNonJsonData rfl rfl rfl rfl
  exact h.mpr (Or.inr ⟨Json.str "hello", rfl, rfl⟩)

/-- C5 counterexample: a list item with no `img` on a page with no
Open-Graph image gets the page's own URL as its image — the empty string
resolved against the base per `new URL('', base)` — not the empty string
the claim requires. -/
theorem c5_absent_image_counterexample :
    (autoExtractContent (extractMainContent onePlainItemDom
        "https://a.com/x/") 0).toOption.map
      (fun f => f.items.map FeedItem.image) = some ["https://a.com/x/"] ∧
    ("https://a.com/x/" : String) ≠ "" := by
  constructor
  · decide
  · decide

/-- C5 amended: every item built from a matched list element carries an
absolute `url` and an absolute `image`, each resolved against the page
URL (whenever the build succeeds); an item with no `img` `src` on a page
with no Open-Graph image gets the resolution of the empty string against
the page URL (the page URL itself, fragment stripped) rather than the
empty string; and resolution follows standard rules, e.g. the spec's
example `../y.jpg` against `https://a.com/x/`. -/
theorem c5_url_resolution :
    (∀ (c : Content) (now : Nat) (f : Feed),
      autoExtractContent c now = .ok f → c.dom.listItems ≠ [] →
      ∀ it ∈ f.items, IsAbsUrl it.url ∧ IsAbsUrl it.image) ∧
    (∀ (c : Content) (now idx : Nat) (item : DomItem) (y : FeedItem),
      item.imgSrc = none → c.dom.ogImage = none →
      buildItem c now idx item = .ok y →
      resolveURL "" c.url = some y.image) ∧
    resolveURL "../y.jpg" "https://a.com/x/" = some "https://a.com/y.jpg" := by
  refine ⟨?_, ?_, rfl⟩
  · intro c now f h hne it hit
    obtain ⟨items, hm, hf⟩ := autoExtract_items c now f h
    rw [hf] at hit
    split at hit
    · obtain ⟨j, x, hx, hfx⟩ := mapIdxE_mem _ _ _ _ hm it hit
      obtain ⟨hu, hi, -⟩ := buildItem_ok c now j x it hfx
      exact ⟨resolveURL_abs _ _ _ hu, resolveURL_abs _ _ _ hi⟩
    · exfalso
      have hlen := mapIdxE_length _ _ _ _ hm
      rename_i hnpos
      apply hne
      cases hli : c.dom.listItems with
      | nil => rfl
      | cons a as =>
        rw [hli] at hlen
        simp at hlen
        omega
  · intro c now idx item y himg hog h
    obtain ⟨-, hi, -⟩ := buildItem_ok c now idx item y h
    have hempty : jsOrS item.imgSrc (jsOrS c.dom.ogImage "") = "" := by
      rw [himg, hog]
      rfl
    rw [hempty] at hi
    exact hi

/-- C5 witness: the empty-image resolution applied at the concrete
one-item page with base `https://a.com/x/`. -/
theorem c5_url_resolution_witness :
    resolveURL "" (extractMainContent onePlainItemDom "https://a.com/x/").url =
      some "https://a.com/x/" := by
  have h := c5_url_resolution.2.1
    (extractMainContent onePlainItemDom "https://a.com/x/") 0 0 plainItem
    { id := Json.str "0", url := "https://a.com/p1", title := "First Post",
      image := "https://a.com/x/", date_published := toISOString 0, tags := [] }
    rfl rfl rfl
  exact h

/-- C3 counterexample: on the code, `auto` is not the heuristic sentinel
(`rebot` is), so a request with mode `auto` is rejected 400.  Two inputs
the claim says must be rejected 400 are not: the URL check is only
`startsWith('http')`, so `httpgarbage` — which matches no
`http://`/`https://` prefix — passes validation, after which the fetch
capability deterministically rejects it (a real `fetch` throws a
`TypeError` on a non-absolute request string) and the handler answers
500; and mode `toString` is neither a configured provider nor `auto`,
yet `AI_SERVICES['toString']` finds the inherited
`Object.prototype.toString` (truthy), so validation passes and the
request fails later in the credential check of `processWithAI`, again
500. -/
theorem c3_validation_counterexample :
    (handler strictFetchEnv emptyState autoModeReq 0).2.1.status = 400 ∧
    (handler strictFetchEnv emptyState weakUrlReq 0).2.1.status = 500 ∧
    (handler strictFetchEnv emptyState protoModeReq 0).2.1.status = 500 := by
  refine ⟨by decide, by decide, by decide⟩

/-- C3 amended: for an admitted request, the handler answers 400 exactly
when the URL is absent/empty or does not start with the four characters
`http`, or (the URL being acceptable) the mode is present, nonempty,
reads `undefined` from `AI_SERVICES` even through the prototype chain —
so neither a configured provider name nor an `Object.prototype` name —
and is not the sentinel `rebot`; and on a fetchable URL the pipeline
dispatches to the heuristic builder exactly when the mode is `rebot` or
is absent/empty. -/
theorem c3_validation_characterization :
    (∀ (env : Env) (st : ServerState) (req : Request) (now : Nat),
      (rateLimiterStep st.rateMap (clientIp req) now).2 = true →
      ((handler env st req now).2.1.status = 400 ↔
        (truthy req.url && strStartsWith (req.url.getD "") "http") = false ∨
          ((truthy req.url && strStartsWith (req.url.getD "") "http") = true ∧
            (truthy req.ai && !(aiServicesTruthy (req.ai.getD "")) &&
              !(req.ai == some "rebot")) = true))) ∧
    (∀ (env : Env) (ai : Option String) (url : String) (now : Nat)
      (html : String),
      env.fetchResult url = .ok html →
      ((runPipeline env ai url now).2 = some .heuristic ↔
        (ai = some "rebot" ∨ truthy ai = false))) := by
  constructor
  · intro env st req now hadm
    by_cases hu : (truthy req.url && strStartsWith (req.url.getD "") "http") = true
    · by_cases ha : (truthy req.ai && !(aiServicesTruthy (req.ai.getD "")) &&
          !(req.ai == some "rebot")) = true
      · have hstat : (handler env st req now).2.1.status = 400 := by
          unfold handler
          simp only [hadm, hu, ha, Bool.not_true, Bool.false_eq_true,
            if_false, if_true]
        rw [hstat]
        constructor
        · intro
          exact Or.inr ⟨hu, ha⟩
        · intro
          rfl
      · have ha2 : (truthy req.ai && !(aiServicesTruthy (req.ai.getD "")) &&
            !(req.ai == some "rebot")) = false := by
          simpa using ha
        have hne : (handler env st req now).2.1.status ≠ 400 := by
          unfold handler
          simp only [hadm, hu, ha2, Bool.not_true, Bool.false_eq_true,
            if_false, if_true]
          cases hcg : cacheGet st.cache (cacheKeyOf req) now with
          | some cached =>
            simp only [hcg]
            decide
          | none =>
            simp only [hcg]
            cases hpr : (runPipeline env req.ai (req.url.getD "") now).1 with
            | error e =>
              simp only [hpr]
              decide
            | ok result =>
              simp only [hpr]
              decide
        constructor
        · intro hc
          exact absurd hc hne
        · rintro (hc | ⟨-, hc⟩)
          · rw [hu] at hc
            cases hc
          · rw [hc] at ha2
            cases ha2
    · have hu2 : (truthy req.url && strStartsWith (req.url.getD "") "http") =
          false := by
        simpa using hu
      have hstat : (handler env st req now).2.1.status = 400 := by
        unfold handler
        simp only [hadm, hu2, Bool.not_true, Bool.not_false, Bool.false_eq_true,
          if_false, if_true]
      rw [hstat]
      constructor
      · intro
        exact Or.inl hu2
      · intro
        rfl
  · intro env ai url now html hfetch
    by_cases hcnd : (ai == some "rebot" || !(truthy ai)) = true
    · have hk : (runPipeline env ai url now).2 = some .heuristic := by
        unfold runPipeline
        rw [hfetch]
        simp only [hcnd, if_true]
      rw [hk]
      constructor
      · intro
        rcases Bool.or_eq_true_iff.mp hcnd with h | h
        · exact Or.inl (by simpa using h)
        · exact Or.inr (by simpa using h)
      · intro
        rfl
    · have hcnd2 : (ai == some "rebot" || !(truthy ai)) = false := by
        simpa using hcnd
      have hk : (runPipeline env ai url now).2 =
          some (.aiService (ai.getD "")) := by
        unfold runPipeline
        rw [hfetch]
        simp only [hcnd2, Bool.false_eq_true, if_false]
      rw [hk]
      constructor
      · intro hk2
        simp at hk2
      · intro hk2
        rcases hk2 with h | h
        · rw [h] at hcnd2
          simp at hcnd2
        · simp [h] at hcnd2

/-- C3 witness: the characterization applied to a concrete admitted
request whose mode is the prototype name `toString` (the status, 500, is
not 400, and neither disjunct of the right-hand side holds), and to the
dispatch of the `rebot` sentinel. -/
theorem c3_validation_characterization_witness :
    ((handler strictFetchEnv emptyState protoModeReq 0).2.1.status = 400 ↔
      (truthy protoModeReq.url && strStartsWith (protoModeReq.url.getD "") "http") =
          false ∨
        ((truthy protoModeReq.url && strStartsWith (protoModeReq.url.getD "") "http") =
            true ∧
          (truthy protoModeReq.ai &&
            !(aiServicesTruthy (protoModeReq.ai.getD "")) &&
            !(protoModeReq.ai == some "rebot")) = true)) ∧
    ((runPipeline strictFetchEnv (some "rebot") "https://a.com/" 0).2 =
        some .heuristic ↔
      (some "rebot" = some "rebot" ∨ truthy (some "rebot") = false)) := by
  constructor
  · exact c3_validation_characterization.1 strictFetchEnv emptyState protoModeReq 0 rfl
  · exact c3_validation_characterization.2 strictFetchEnv (some "rebot")
      "https://a.com/" 0 "<html></html>" rfl

/-- C10 counterexample: in AI mode the provider's decoded message content
is cached verbatim, so when the provider returns a document that itself
carries a `generated_at` member, the stored cache value contains
`generated_at`, refuting "the JSONFeedDocument stored in the cache never
contains a generated_at field". -/
theorem c10_cached_generated_at_counterexample :
    (handler aiEnvGeneratedAt emptyState openaiReq 0).1.cache.map
      (fun p => (p.1, (p.2.value.get? "generated_at").isSome, p.2.insertedAt)) =
      [("analyze:openai:https://a.com/", true, 0)] := by
  decide

/-- C10 amended: serving a cache hit leaves the cache untouched and does
not re-run the pipeline, the response data is the shallow copy of the
cached value with a fresh `generated_at` stamp set on the copy only, and
heuristically built documents indeed never serialize a `generated_at`
member (only an AI-built document can carry one, put there by the
provider). -/
theorem c10_cache_hit_frame :
    (∀ (env : Env) (st : ServerState) (req : Request) (now : Nat)
      (cached : Json),
      (rateLimiterStep st.rateMap (clientIp req) now).2 = true →
      (truthy req.url && strStartsWith (req.url.getD "") "http") = true →
      (truthy req.ai && !(aiServiceNames.contains (req.ai.getD "")) &&
        !(req.ai == some "rebot")) = false →
      cacheGet st.cache (cacheKeyOf req) now = some cached →
      (handler env st req now).1.cache = st.cache ∧
      (handler env st req now).2.2.ran = false ∧
      responseData (handler env st req now).2.1 =
        some (withGeneratedAt cached now)) ∧
    (∀ (c : Content) (now : Nat) (f : Feed),
      autoExtractContent c now = .ok f →
      f.toJson.get? "generated_at" = none) := by
  constructor
  · intro env st req now cached hadm hurl hmode hhit
    have hmode2 := modeCond_false req.ai hmode
    have hh : handler env st req now =
        ({ st with rateMap := (rateLimiterStep st.rateMap (clientIp req) now).1 },
         { status := 200, body := okBody (withGeneratedAt cached now) },
         { ran := false, builder := none }) := by
      unfold handler
      simp only [hadm, hurl, hmode2, hhit, Bool.not_true, Bool.false_eq_true,
        if_false, if_true]
    rw [hh]
    exact ⟨rfl, rfl, rfl⟩
  · intro c now f h
    rfl

/-- C10 witness: a concrete cache hit at time 50 against a pre-populated
state. -/
theorem c10_cache_hit_frame_witness :
    (handler heuristicEnv c10state plainUrlReq 50).1.cache = c10state.cache ∧
    (handler heuristicEnv c10state plainUrlReq 50).2.2.ran = false ∧
    responseData (handler heuristicEnv c10state plainUrlReq 50).2.1 =
      some (withGeneratedAt (Json.obj [("title", Json.str "t")]) 50) :=
  c10_cache_hit_frame.1 heuristicEnv c10state plainUrlReq 50
    (Json.obj [("title", Json.str "t")]) rfl rfl rfl rfl

/-- C1 counterexample: two identical requests served within the same
millisecond — the first a miss that runs the pipeline, the second a
cache hit within the TTL — carry EQUAL `generated_at` stamps, because
both stamps are `Date.now()` readings and nothing makes the second
reading strictly later.  This refutes the claim's requirement that the
hit's stamp be strictly later than (or even differ from) the miss's. -/
theorem c1_same_ms_counterexample :
    (handler heuristicEnv emptyState plainUrlReq 0).2.1.status = 200 ∧
    (handler heuristicEnv emptyState plainUrlReq 0).2.2.ran = true ∧
    (handler heuristicEnv (handler heuristicEnv emptyState plainUrlReq 0).1
      plainUrlReq 0).2.1.status = 200 ∧
    (handler heuristicEnv (handler heuristicEnv emptyState plainUrlReq 0).1
      plainUrlReq 0).2.2.ran = false ∧
    (responseData (handler heuristicEnv emptyState plainUrlReq 0).2.1).bind
        (fun d => d.get? "generated_at") =
      (responseData (handler heuristicEnv
        (handler heuristicEnv emptyState plainUrlReq 0).1
        plainUrlReq 0).2.1).bind (fun d => d.get? "generated_at") ∧
    (responseData (handler heuristicEnv emptyState plainUrlReq 0).2.1).bind
        (fun d => d.get? "generated_at") =
      some (Json.str "1970-01-01T00:00:00.000Z") :=
  ⟨rfl, rfl, rfl, rfl, rfl, rfl⟩

/-- C1 amended: after a successful miss at time `t1`, a repeat of the
same request at time `t2` inside the TTL window is served from the cache
without re-running the pipeline; its data is the same document with the
`generated_at` member re-stamped at `t2` — all other fields identical —
and the two stamps differ whenever the second response is served at a
strictly later millisecond (not in the same one). -/
theorem c1_cache_hit_fresh_stamp (env : Env) (st : ServerState)
    (req : Request) (t1 t2 : Nat) (result : Json)
    (hadm1 : (rateLimiterStep st.rateMap (clientIp req) t1).2 = true)
    (hurl : (truthy req.url && strStartsWith (req.url.getD "") "http") = true)
    (hmode : (truthy req.ai && !(aiServiceNames.contains (req.ai.getD "")) &&
      !(req.ai == some "rebot")) = false)
    (hmiss : cacheGet st.cache (cacheKeyOf req) t1 = none)
    (hok : (runPipeline env req.ai (req.url.getD "") t1).1 = .ok result)
    (hadm2 : (rateLimiterStep (handler env st req t1).1.rateMap
      (clientIp req) t2).2 = true)
    (httl : t2 < t1 + 300000) :
    (handler env st req t1).2.1.status = 200 ∧
    (handler env st req t1).2.2.ran = true ∧
    responseData (handler env st req t1).2.1 =
      some (withGeneratedAt result t1) ∧
    (handler env (handler env st req t1).1 req t2).2.1.status = 200 ∧
    (handler env (handler env st req t1).1 req t2).2.2.ran = false ∧
    responseData (handler env (handler env st req t1).1 req t2).2.1 =
      some (withGeneratedAt result t2) ∧
    eraseField (fieldsOf (withGeneratedAt result t1)) "generated_at" =
      eraseField (fieldsOf (withGeneratedAt result t2)) "generated_at" ∧
    (withGeneratedAt result t1).get? "generated_at" =
      some (Json.str (toISOString t1)) ∧
    (withGeneratedAt result t2).get? "generated_at" =
      some (Json.str (toISOString t2)) ∧
    (t1 < t2 → t2 < 253402300800000 → toISOString t1 ≠ toISOString t2) := by
  have hmode2 := modeCond_false req.ai hmode
  have hh1 : handler env st req t1 =
      ({ rateMap := (rateLimiterStep st.rateMap (clientIp req) t1).1,
         cache := setA st.cache (cacheKeyOf req)
           { value := result, insertedAt := t1 } },
       { status := 200, body := okBody (withGeneratedAt result t1) },
       { ran := true, builder := (runPipeline env req.ai (req.url.getD "") t1).2 }) := by
    unfold handler
    simp only [hadm1, hurl, hmode2, hmiss, hok, Bool.not_true,
      Bool.false_eq_true, if_false, if_true]
  have hcache2 : cacheGet (handler env st req t1).1.cache (cacheKeyOf req) t2 =
      some result := by
    rw [hh1]
    show cacheGet (setA st.cache (cacheKeyOf req)
      { value := result, insertedAt := t1 }) (cacheKeyOf req) t2 = some result
    unfold cacheGet
    rw [lookupA_setA]
    simp only [if_pos (show t2 < t1 + 300000 from httl)]
  have hh2 : handler env (handler env st req t1).1 req t2 =
      ({ rateMap := (rateLimiterStep (handler env st req t1).1.rateMap
           (clientIp req) t2).1,
         cache := (handler env st req t1).1.cache },
       { status := 200, body := okBody (withGeneratedAt result t2) },
       { ran := false, builder := none }) := by
    generalize hst2 : (handler env st req t1).1 = st2 at hadm2 hcache2 ⊢
    unfold handler
    simp only [hadm2, hurl, hmode2, hcache2, Bool.not_true,
      Bool.false_eq_true, if_false, if_true]
  refine ⟨?_, ?_, ?_, ?_, ?_, ?_, ?_, ?_, ?_, ?_⟩
  · rw [hh1]
  · rw [hh1]
  · rw [hh1]
    exact congrArg some (congrArg (withGeneratedAt · t1) rfl)
  · rw [hh2]
  · rw [hh2]
  · rw [hh2]
    exact congrArg some (congrArg (withGeneratedAt · t2) rfl)
  · show eraseField (setField (fieldsOf result) "generated_at"
        (Json.str (toISOString t1))) "generated_at" =
      eraseField (setField (fieldsOf result) "generated_at"
        (Json.str (toISOString t2))) "generated_at"
    rw [eraseField_setField, eraseField_setField]
  · exact getField_setField (fieldsOf result) "generated_at" _
  · exact getField_setField (fieldsOf result) "generated_at" _
  · intro hlt hb hc
    exact absurd (toISOString_inj t1 t2 (by omega) hb hc) (by omega)

/-- C1 witness: the amended theorem at the concrete heuristic run
`plainUrlReq` with the miss at time 0 and the hit at time 1. -/
theorem c1_cache_hit_fresh_stamp_witness :
    (handler heuristicEnv emptyState plainUrlReq 0).2.1.status = 200 ∧
    (handler heuristicEnv emptyState plainUrlReq 0).2.2.ran = true ∧
    responseData (handler heuristicEnv emptyState plainUrlReq 0).2.1 =
      some (withGeneratedAt c1result 0) ∧
    (handler heuristicEnv (handler heuristicEnv emptyState plainUrlReq 0).1
      plainUrlReq 1).2.1.status = 200 ∧
    (handler heuristicEnv (handler heuristicEnv emptyState plainUrlReq 0).1
      plainUrlReq 1).2.2.ran = false ∧
    responseData (handler heuristicEnv
        (handler heuristicEnv emptyState plainUrlReq 0).1 plainUrlReq 1).2.1 =
      some (withGeneratedAt c1result 1) ∧
    eraseField (fieldsOf (withGeneratedAt c1result 0)) "generated_at" =
      eraseField (fieldsOf (withGeneratedAt c1result 1)) "generated_at" ∧
    (withGeneratedAt c1result 0).get? "generated_at" =
      some (Json.str (toISOString 0)) ∧
    (withGeneratedAt c1result 1).get? "generated_at" =
      some (Json.str (toISOString 1)) ∧
    (0 < 1 → (1 : Nat) < 253402300800000 → toISOString 0 ≠ toISOString 1) :=
  c1_cache_hit_fresh_stamp heuristicEnv emptyState plainUrlReq 0 1 c1result
    rfl rfl rfl rfl rfl (by decide) (by decide)

end Web2JsonFeed
